import Mathlib

/-!
# The pgtask controller of the postgres operator

A shallow embedding of `controller/pgtask/pgtaskcontroller.go`:
`processNextItem`, `onAdd`, `dupeFailover` and `dupeDeleteData`.

The work queue, the resource store (`kubeapi`) and the task handlers are
collaborators of the controller. Every call the controller makes to one of
them is recorded, in program order, in a list of `Call`s; what the resource
store answers is a parameter (`Kubeapi`), threaded through an explicit store
state so that two fetches of one name may answer differently. A Go panic is
the return value `none`. Log calls have no effect on the collaborators and
are left out, except that `err.Error()` on a nil error panics. The task
handlers return nothing to the controller and are taken to return.
-/

set_option autoImplicit false

namespace PgtaskController

/-! ## Data model -/

/-- Modelled from the spec: the metadata identity `(namespace, name)` of a task
resource; the Go type is declared in the Kubernetes API machinery. -/
structure ObjectMeta where
  Name : String
  Namespace : String
  deriving DecidableEq, Repr

/-- Modelled from the spec: `crv1.PgtaskSpec` is declared outside the two source
files; these are the fields the controller reads. `Parameters` is the Go
`map[string]string`, kept as an association list. -/
structure PgtaskSpec where
  Name : String
  TaskType : String
  Parameters : List (String × String)
  deriving DecidableEq, Repr

/-- Modelled from the spec: `crv1.PgtaskStatus`, the `state` and the free-text
`statusMessage` of a task resource. -/
structure PgtaskStatus where
  State : String
  Message : String
  deriving DecidableEq, Repr

/-- Modelled from the spec: `crv1.Pgtask`, the task resource. -/
structure Pgtask where
  ObjectMeta : ObjectMeta
  Spec : PgtaskSpec
  Status : PgtaskStatus
  deriving DecidableEq, Repr

/-- The Go zero value `crv1.Pgtask{}`. -/
def zeroPgtask : Pgtask :=
  ⟨⟨"", ""⟩, ⟨"", "", []⟩, ⟨"", ""⟩⟩

/-- Indexing a Go `map[string]string`: the value stored under the key, and the
empty string when the key is absent (also for a nil map). -/
def mapIndex : List (String × String) → String → String
  | [], _ => ""
  | (k, v) :: rest, key => if k = key then v else mapIndex rest key

/-! ## Constants of `crv1` and `config`

The constants are declared outside the two source files. Their values below
follow the names the specification gives them; the `switch` of
`processNextItem` requires the task types to be pairwise distinct. -/

/-- Modelled from the spec: `crv1.PgtaskStateProcessed`, the state Processed. -/
def PgtaskStateProcessed : String := "Processed"

/-- Modelled from the spec: `crv1.PgtaskMinorUpgrade`, task type minor-upgrade. -/
def PgtaskMinorUpgrade : String := "minor-upgrade"
/-- Modelled from the spec: `crv1.PgtaskFailover`, task type failover. -/
def PgtaskFailover : String := "failover"
/-- Modelled from the spec: `crv1.PgtaskDeleteData`, task type delete-data. -/
def PgtaskDeleteData : String := "delete-data"
/-- Modelled from the spec: `crv1.PgtaskDeleteBackups`, task type delete-backups. -/
def PgtaskDeleteBackups : String := "delete-backups"
/-- Modelled from the spec: `crv1.PgtaskBackrest`, task type backrest-backup. -/
def PgtaskBackrest : String := "backrest-backup"
/-- Modelled from the spec: `crv1.PgtaskBackrestRestore`, task type backrest-restore. -/
def PgtaskBackrestRestore : String := "backrest-restore"
/-- Modelled from the spec: `crv1.PgtaskpgDump`, task type pg-dump. -/
def PgtaskpgDump : String := "pg-dump"
/-- Modelled from the spec: `crv1.PgtaskpgRestore`, task type pg-restore. -/
def PgtaskpgRestore : String := "pg-restore"
/-- Modelled from the spec: `crv1.PgtaskAutoFailover`, task type auto-failover. -/
def PgtaskAutoFailover : String := "auto-failover"
/-- Modelled from the spec: `crv1.PgtaskWorkflow`, task type workflow. -/
def PgtaskWorkflow : String := "workflow"
/-- Modelled from the spec: `crv1.PgtaskCloneStep1`, task type clone-step-1. -/
def PgtaskCloneStep1 : String := "clone-step-1"
/-- Modelled from the spec: `crv1.PgtaskCloneStep2`, task type clone-step-2. -/
def PgtaskCloneStep2 : String := "clone-step-2"
/-- Modelled from the spec: `crv1.PgtaskCloneStep3`, task type clone-step-3. -/
def PgtaskCloneStep3 : String := "clone-step-3"

/-- Modelled from the spec: `config.LABEL_FAILOVER_STARTED`, the failover
"started" marker key. -/
def LABEL_FAILOVER_STARTED : String := "failover-started"
/-- Modelled from the spec: `config.LABEL_DELETE_DATA_STARTED`, the delete-data
"started" marker key. -/
def LABEL_DELETE_DATA_STARTED : String := "delete-data-started"

/-! ## Collaborators -/

/-- What `kubeapi.Getpgtask(client, &task, name, namespace)` hands back: the two
results `(found, err)` (`err = none` is the nil error) and the contents of the
task it was given a pointer to. -/
structure GetReply where
  found : Bool
  err : Option String
  task : Pgtask
  deriving DecidableEq, Repr

/-- The resource store as the controller uses it (`kubeapi`, declared outside
the two source files), over a store state `σ`. -/
structure Kubeapi (σ : Type) where
  /-- The call `Getpgtask(client, &task, name, namespace)`. -/
  Getpgtask : σ → String → String → GetReply × σ
  /-- The call `PatchpgtaskStatus(client, state, message, &task, namespace)`,
  returning its error. The interface is `PatchStatus(resource, newState, message)`
  with an error as its only result: the `Spec` of the task behind the pointer is
  what the fetch put there, and the calls after the patch record the task as
  fetched. -/
  PatchpgtaskStatus : σ → String → String → Pgtask → String → Option String × σ

/-- The external task handlers `processNextItem` dispatches to. -/
inductive Handler
  /-- The handler `clusteroperator.AddUpgrade`. -/
  | AddUpgrade
  /-- The handler `clusteroperator.FailoverBase`. -/
  | FailoverBase
  /-- The handler `taskoperator.RemoveData`. -/
  | RemoveData
  /-- The handler `taskoperator.RemoveBackups`. -/
  | RemoveBackups
  /-- The handler `backrestoperator.Backrest`. -/
  | Backrest
  /-- The handler `backrestoperator.Restore`. -/
  | BackrestRestore
  /-- The handler `pgdumpoperator.Dump`. -/
  | Dump
  /-- The handler `pgdumpoperator.Restore`. -/
  | PgdumpRestore
  /-- The handler `clusteroperator.Clone`. -/
  | Clone
  deriving DecidableEq, Repr

/-- A call the controller makes to a collaborator. -/
inductive Call
  /-- The call `c.Queue.Add(key)`. -/
  | QueueAdd (key : String)
  /-- The call `c.Queue.Done(key)`. -/
  | QueueDone (key : String)
  /-- The call `kubeapi.Getpgtask(client, &task, name, ns)`. -/
  | Getpgtask (name ns : String)
  /-- The call `kubeapi.PatchpgtaskStatus(client, state, message, &task, ns)`. -/
  | PatchpgtaskStatus (state message : String) (task : Pgtask) (ns : String)
  /-- A task handler called with the namespace and the task. -/
  | Handle (h : Handler) (ns : String) (task : Pgtask)
  deriving DecidableEq, Repr

/-- Is the call a `Queue.Done`? -/
def Call.isQueueDone : Call → Bool
  | .QueueDone _ => true
  | _ => false

/-- Is the call a `PatchpgtaskStatus`? -/
def Call.isPatch : Call → Bool
  | .PatchpgtaskStatus _ _ _ _ => true
  | _ => false

/-- Is the call a task handler call? -/
def Call.isHandle : Call → Bool
  | .Handle _ _ _ => true
  | _ => false

/-- Is the call a store fetch? -/
def Call.isGet : Call → Bool
  | .Getpgtask _ _ => true
  | _ => false

/-! ## Library functions -/

/-- Splitting a list of characters at every occurrence of `sep`. -/
def splitChars (sep : Char) : List Char → List (List Char)
  | [] => [[]]
  | c :: cs =>
    if c = sep then [] :: splitChars sep cs
    else
      match splitChars sep cs with
      | [] => [[c]]
      | p :: ps => (c :: p) :: ps

/-- Go `strings.Split(s, sep)` for a separator of one character: all the
substrings between separators; a string without the separator yields itself
as the only part. -/
def strings_Split (s : String) (sep : Char) : List String :=
  (splitChars sep s.data).map String.mk

/-- Modelled from the spec: `cache.MetaNamespaceKeyFunc` (client-go, outside the
two source files). The Dedup Key Extractor outputs the string `namespace/name`
and has no error path for a task resource. -/
def MetaNamespaceKeyFunc (task : Pgtask) : String × Option String :=
  (task.ObjectMeta.Namespace ++ "/" ++ task.ObjectMeta.Name, none)

/-! ## The controller -/

/-- The result of a guard: its verdict, the store state it leaves, and the
calls it made. -/
structure GuardResult (σ : Type) where
  dupe : Bool
  store : σ
  calls : List Call

/-- `dupeFailover(restClient, task, ns)`. -/
def dupeFailover {σ : Type} (K : Kubeapi σ) (s : σ) (task : Pgtask) (ns : String) :
    GuardResult σ :=
  let r := K.Getpgtask s task.Spec.Name ns
  let tmp := r.1.task
  if !r.1.found then
    ⟨false, r.2, [Call.Getpgtask task.Spec.Name ns]⟩
  else if mapIndex tmp.Spec.Parameters LABEL_FAILOVER_STARTED = "" then
    ⟨false, r.2, [Call.Getpgtask task.Spec.Name ns]⟩
  else
    ⟨true, r.2, [Call.Getpgtask task.Spec.Name ns]⟩

/-- `dupeDeleteData(restClient, task, ns)`. -/
def dupeDeleteData {σ : Type} (K : Kubeapi σ) (s : σ) (task : Pgtask) (ns : String) :
    GuardResult σ :=
  let r := K.Getpgtask s task.Spec.Name ns
  let tmp := r.1.task
  if !r.1.found then
    ⟨false, r.2, [Call.Getpgtask task.Spec.Name ns]⟩
  else if mapIndex tmp.Spec.Parameters LABEL_DELETE_DATA_STARTED = "" then
    ⟨false, r.2, [Call.Getpgtask task.Spec.Name ns]⟩
  else
    ⟨true, r.2, [Call.Getpgtask task.Spec.Name ns]⟩

/-- The `switch tmpTask.Spec.TaskType` of `processNextItem`: the calls it
makes, the cases tried from top to bottom. -/
def processNextItem_switch {σ : Type} (K : Kubeapi σ) (s : σ) (tmpTask : Pgtask)
    (keyNamespace : String) : List Call :=
  if tmpTask.Spec.TaskType = PgtaskMinorUpgrade then
    [Call.Handle Handler.AddUpgrade keyNamespace tmpTask]
  else if tmpTask.Spec.TaskType = PgtaskFailover then
    let g := dupeFailover K s tmpTask keyNamespace
    if !g.dupe then g.calls ++ [Call.Handle Handler.FailoverBase keyNamespace tmpTask]
    else g.calls
  else if tmpTask.Spec.TaskType = PgtaskDeleteData then
    let g := dupeDeleteData K s tmpTask keyNamespace
    if !g.dupe then g.calls ++ [Call.Handle Handler.RemoveData keyNamespace tmpTask]
    else g.calls
  else if tmpTask.Spec.TaskType = PgtaskDeleteBackups then
    [Call.Handle Handler.RemoveBackups keyNamespace tmpTask]
  else if tmpTask.Spec.TaskType = PgtaskBackrest then
    [Call.Handle Handler.Backrest keyNamespace tmpTask]
  else if tmpTask.Spec.TaskType = PgtaskBackrestRestore then
    [Call.Handle Handler.BackrestRestore keyNamespace tmpTask]
  else if tmpTask.Spec.TaskType = PgtaskpgDump then
    [Call.Handle Handler.Dump keyNamespace tmpTask]
  else if tmpTask.Spec.TaskType = PgtaskpgRestore then
    [Call.Handle Handler.PgdumpRestore keyNamespace tmpTask]
  else if tmpTask.Spec.TaskType = PgtaskAutoFailover then
    []
  else if tmpTask.Spec.TaskType = PgtaskWorkflow then
    []
  else if tmpTask.Spec.TaskType = PgtaskCloneStep1 ∨ tmpTask.Spec.TaskType = PgtaskCloneStep2
      ∨ tmpTask.Spec.TaskType = PgtaskCloneStep3 then
    [Call.Handle Handler.Clone keyNamespace tmpTask]
  else
    []

/-- How a call of `processNextItem` ends: `ret` is the returned boolean, `none`
when the call panicked; `calls` are the calls made, in order, the deferred
`Queue.Done` included. -/
structure Outcome where
  ret : Option Bool
  calls : List Call
  deriving DecidableEq, Repr

/-- `Controller.processNextItem`, given what `c.Queue.Get()` returned
(`key`, `quit`). The deferred `Queue.Done(key)` is registered after the key is
split and runs when the function returns or panics afterwards. -/
def processNextItem {σ : Type} (K : Kubeapi σ) (s : σ) (key : String) (quit : Bool) :
    Outcome :=
  if quit then ⟨some false, []⟩
  else
    match strings_Split key '/' with
    | keyNamespace :: keyResourceName :: _ =>
      let r := K.Getpgtask s keyResourceName keyNamespace
      let tmpTask := r.1.task
      if !r.1.found then
        match r.1.err with
        | none =>
          -- err.Error() on a nil error
          ⟨none, [Call.Getpgtask keyResourceName keyNamespace, Call.QueueDone key]⟩
        | some _ =>
          ⟨some false, [Call.Getpgtask keyResourceName keyNamespace, Call.QueueDone key]⟩
      else
        let p := K.PatchpgtaskStatus r.2 PgtaskStateProcessed
          "Successfully processed Pgtask by controller" tmpTask keyNamespace
        match p.1 with
        | some _ =>
          ⟨some false, [Call.Getpgtask keyResourceName keyNamespace,
            Call.PatchpgtaskStatus PgtaskStateProcessed
              "Successfully processed Pgtask by controller" tmpTask keyNamespace,
            Call.QueueDone key]⟩
        | none =>
          ⟨some true, [Call.Getpgtask keyResourceName keyNamespace,
            Call.PatchpgtaskStatus PgtaskStateProcessed
              "Successfully processed Pgtask by controller" tmpTask keyNamespace]
            ++ processNextItem_switch K p.2 tmpTask keyNamespace ++ [Call.QueueDone key]⟩
    | _ =>
      -- keyParts[1]: index out of range, before the defer statement
      ⟨none, []⟩

/-- `Controller.onAdd`: the calls it makes and the task it was given a pointer
to as it is when `onAdd` returns. -/
def onAdd (task : Pgtask) : List Call × Pgtask :=
  if task.Status.State = PgtaskStateProcessed then ([], task)
  else
    match MetaNamespaceKeyFunc task with
    | (key, none) => ([Call.QueueAdd key], task)
    | (_, some _) => ([], task)

/-! ## An in-memory resource store, for the concrete runs -/

/-- The first task of the list with the given name and namespace. -/
def memFind : List Pgtask → String → String → Option Pgtask
  | [], _, _ => none
  | t :: ts, name, ns =>
    if t.ObjectMeta.Name = name ∧ t.ObjectMeta.Namespace = ns then some t
    else memFind ts name ns

/-- Overwrite the status of the tasks with the given name and namespace. -/
def memSetStatus (st : PgtaskStatus) (name ns : String) : List Pgtask → List Pgtask
  | [] => []
  | t :: ts =>
    (if t.ObjectMeta.Name = name ∧ t.ObjectMeta.Namespace = ns then { t with Status := st }
      else t) :: memSetStatus st name ns ts

/-- Modelled from the spec: a Resource Store holding a list of tasks.
`Get(name, namespace)` reports found with a nil error and the stored task, or
not found with an error; `PatchStatus` overwrites the stored status and fails
when the task is not stored. -/
def memKube : Kubeapi (List Pgtask) where
  Getpgtask := fun s name ns =>
    match memFind s name ns with
    | some t => (⟨true, none, t⟩, s)
    | none => (⟨false, some "pgtasks not found", zeroPgtask⟩, s)
  PatchpgtaskStatus := fun s state message task ns =>
    match memFind s task.ObjectMeta.Name ns with
    | some _ => (none, memSetStatus ⟨state, message⟩ task.ObjectMeta.Name ns s)
    | none => (some "pgtasks not found", s)

/-- A task of the given namespace, name, spec name, type and parameters, in the
state Submitted. -/
def mkTask (ns name specName taskType : String) (params : List (String × String)) : Pgtask :=
  ⟨⟨name, ns⟩, ⟨specName, taskType, params⟩, ⟨"Submitted", ""⟩⟩

/-- A resource store whose fetch reports found together with a non-nil error,
and whose status patch succeeds. -/
def foundWithErrKube : Kubeapi Unit where
  Getpgtask := fun s name ns =>
    (⟨true, some "connection reset", mkTask ns name name PgtaskBackrest []⟩, s)
  PatchpgtaskStatus := fun s _ _ _ _ => (none, s)

/-! ## The steps of one run of `processNextItem`, named for the statements -/

/-- The reply to the fetch `processNextItem` makes for the key parts. -/
def fetched {σ : Type} (K : Kubeapi σ) (s : σ) (name ns : String) : GetReply :=
  (K.Getpgtask s name ns).1

/-- What the status patch of `processNextItem` returns after that fetch: its
error and the store state it leaves. -/
def patched {σ : Type} (K : Kubeapi σ) (s : σ) (name ns : String) : Option String × σ :=
  K.PatchpgtaskStatus (K.Getpgtask s name ns).2 PgtaskStateProcessed
    "Successfully processed Pgtask by controller" (K.Getpgtask s name ns).1.task ns

/-- The reply to the fetch a guard makes after the patch: by the `Spec.Name` of
the fetched task, in the namespace of the key. -/
def guardFetched {σ : Type} (K : Kubeapi σ) (s : σ) (name ns : String) : GetReply :=
  (K.Getpgtask (patched K s name ns).2 (fetched K s name ns).task.Spec.Name ns).1

/-- The task types with a case in the switch of `processNextItem`, which are
the values of the closed enumeration `taskType`. -/
def recognizedTaskTypes : List String :=
  [PgtaskMinorUpgrade, PgtaskFailover, PgtaskDeleteData, PgtaskDeleteBackups, PgtaskBackrest,
    PgtaskBackrestRestore, PgtaskpgDump, PgtaskpgRestore, PgtaskAutoFailover, PgtaskWorkflow,
    PgtaskCloneStep1, PgtaskCloneStep2, PgtaskCloneStep3]

/-- A resource store whose fetch reports found, with a task of the type
`vacuum` that no case of the switch names, and whose status patch fails. -/
def patchFailKube : Kubeapi Unit where
  Getpgtask := fun s name ns => (⟨true, none, mkTask ns name name "vacuum" []⟩, s)
  PatchpgtaskStatus := fun s _ _ _ _ => (some "pgtasks is forbidden", s)

end PgtaskController

/-! # The pgbouncer service of the API server

A shallow embedding of `getClusterList` and `UpdatePgBouncer` of
`apiserver/pgbouncerservice/pgbouncerimpl.go`. The cluster store (`kubeapi`),
the helpers of the package `apiserver` and the cluster operator are
parameters (`Apiserver`), threaded through an explicit store state. -/

namespace PgbouncerService

/-- The fields of `crv1.PgBouncerSpec` the service uses. `Resources` is a
`v1.ResourceList`, a Go map from resource name to quantity; `none` is the nil
map. -/
structure PgBouncerSpec where
  Replicas : Int
  Resources : Option (List (String × String))
  deriving DecidableEq, Repr

/-- The fields of `crv1.PgclusterSpec` the service uses. -/
structure PgclusterSpec where
  Name : String
  Namespace : String
  PgBouncer : PgBouncerSpec
  deriving DecidableEq, Repr

/-- The fields of `crv1.Pgcluster` the service uses; `Name` and `Namespace` are
those of its object metadata. A `crv1.PgclusterList` is the list of its
`Items`. -/
structure Pgcluster where
  Name : String
  Namespace : String
  Spec : PgclusterSpec
  deriving DecidableEq, Repr

/-- The Go zero value `crv1.Pgcluster{}`. -/
def zeroPgcluster : Pgcluster :=
  ⟨"", "", ⟨"", "", ⟨0, none⟩⟩⟩

/-- The request `msgs.UpdatePgBouncerRequest`. -/
structure UpdatePgBouncerRequest where
  ClusterNames : List String
  CPURequest : String
  MemoryRequest : String
  Namespace : String
  Replicas : Int
  RotatePassword : Bool
  Selector : String
  deriving DecidableEq, Repr

/-- A result entry `msgs.UpdatePgBouncerDetail`. -/
structure UpdatePgBouncerDetail where
  ClusterName : String
  HasPgBouncer : Bool
  Error : Bool
  ErrorMessage : String
  deriving DecidableEq, Repr

/-- The status codes `msgs.Ok` and `msgs.Error`. -/
inductive StatusCode
  /-- The code `msgs.Ok`. -/
  | Ok
  /-- The code `msgs.Error`. -/
  | Error
  deriving DecidableEq, Repr

/-- The status `msgs.Status` of a response. -/
structure Status where
  Code : StatusCode
  Msg : String
  deriving DecidableEq, Repr

/-- The response `msgs.UpdatePgBouncerResponse`. -/
structure UpdatePgBouncerResponse where
  Results : List UpdatePgBouncerDetail
  Status : Status
  deriving DecidableEq, Repr

/-- What `kubeapi.Getpgcluster(client, &cluster, name, namespace)` hands back:
`(found, err)` and the contents of the cluster it was given a pointer to. -/
structure GetClusterReply where
  found : Bool
  err : Option String
  cluster : Pgcluster
  deriving DecidableEq, Repr

/-- What `kubeapi.GetpgclustersBySelector(client, &clusterList, selector,
namespace)` hands back: its error and the items of the list it filled. -/
structure SelectReply where
  err : Option String
  items : List Pgcluster
  deriving DecidableEq, Repr

/-- The collaborators of the service, declared outside the source files, over a
store state `σ`. -/
structure Apiserver (σ : Type) where
  /-- The check `apiserver.ValidateQuantity(quantity)`, returning its error. -/
  ValidateQuantity : String → Option String
  /-- The quantity of `resource.ParseQuantity(s)`, its error ignored. -/
  ParseQuantity : String → String
  /-- The text of `fmt.Sprintf(apiserver.ErrMessageCPURequest, request, err)`. -/
  ErrMessageCPURequest : String → String → String
  /-- The text of `fmt.Sprintf(apiserver.ErrMessageMemoryRequest, request, err)`. -/
  ErrMessageMemoryRequest : String → String → String
  /-- The text of `fmt.Sprintf(apiserver.ErrMessageReplicas, n)`. -/
  ErrMessageReplicas : Int → String
  /-- The text of `apiserver.ErrStandbyNotAllowed.Error()`. -/
  ErrStandbyNotAllowed : String
  /-- The check `apiserver.PGClusterListHasStandby(clusterList)`. -/
  PGClusterListHasStandby : List Pgcluster → Bool × List String
  /-- The method `cluster.Spec.PgBouncer.Enabled()`. -/
  Enabled : PgBouncerSpec → Bool
  /-- The call `kubeapi.GetpgclustersBySelector`. -/
  GetpgclustersBySelector : σ → String → String → SelectReply × σ
  /-- The call `kubeapi.Getpgcluster(client, &cluster, name, namespace)`. -/
  Getpgcluster : σ → String → String → GetClusterReply × σ
  /-- The call `clusteroperator.RotatePgBouncerPassword(..., &cluster)`,
  returning its error. -/
  RotatePgBouncerPassword : σ → Pgcluster → Option String × σ
  /-- The call `kubeapi.Updatepgcluster(client, &cluster, name, namespace)`,
  returning its error. -/
  Updatepgcluster : σ → Pgcluster → String → String → Option String × σ

/-- The resource name `v1.ResourceCPU`. -/
def ResourceCPU : String := "cpu"
/-- The resource name `v1.ResourceMemory`. -/
def ResourceMemory : String := "memory"

/-- The assignment `m[key] = value` on a Go map. -/
def mapSet : List (String × String) → String → String → List (String × String)
  | [], key, value => [(key, value)]
  | (k, v) :: rest, key, value =>
    if k = key then (k, value) :: rest else (k, v) :: mapSet rest key value

/-- How the loop over `clusterNames` of `getClusterList` ends: by the `return`
inside the loop, with the returned list and error, or by running to its end,
with the items of the cluster list. -/
inductive LoopEnd
  /-- The `return crv1.PgclusterList{}, err` inside the loop. -/
  | returned (items : List Pgcluster) (err : Option String)
  /-- The loop ran over all names. -/
  | finished (items : List Pgcluster)
  deriving DecidableEq, Repr

/-- The loop `for _, clusterName := range clusterNames` of `getClusterList`,
started with the items the cluster list holds. -/
def getClusterList_loop {σ : Type} (A : Apiserver σ) (ns : String) :
    List String → List Pgcluster → σ → LoopEnd × σ
  | [], items, s => (LoopEnd.finished items, s)
  | clusterName :: rest, items, s =>
    let r := A.Getpgcluster s clusterName ns
    if !r.1.found || r.1.err ≠ none then
      (LoopEnd.returned [] r.1.err, r.2)
    else
      getClusterList_loop A ns rest (items ++ [r.1.cluster]) r.2

/-- The part of `getClusterList` from the loop over `clusterNames` on, started
with the items the cluster list holds: the loop, then the check that
clusters were found. -/
def getClusterList_names {σ : Type} (A : Apiserver σ) (ns : String)
    (clusterNames : List String) (items : List Pgcluster) (s : σ) :
    (List Pgcluster × Option String) × σ :=
  match getClusterList_loop A ns clusterNames items s with
  | (LoopEnd.returned l err, s2) => ((l, err), s2)
  | (LoopEnd.finished l, s2) =>
    if l.length = 0 then ((l, some "no clusters found"), s2)
    else ((l, none), s2)

/-- `getClusterList(namespace, clusterNames, selector)`: the items of the
returned cluster list and the returned error (`none` is nil). -/
def getClusterList {σ : Type} (A : Apiserver σ) (s : σ) (ns : String)
    (clusterNames : List String) (selector : String) :
    (List Pgcluster × Option String) × σ :=
  if clusterNames.length = 0 ∧ selector = "" then
    (([], some ("either a list of cluster names or a selector needs to be supplied " ++
      "for this comment")), s)
  else if selector ≠ "" then
    let r := A.GetpgclustersBySelector s selector ns
    match r.1.err with
    | some e => (([], some e), r.2)
    | none => getClusterList_names A ns clusterNames r.1.items r.2
  else
    getClusterList_names A ns clusterNames [] s

/-- The body of the loop `for _, cluster := range clusterList.Items` of
`UpdatePgBouncer`, run over the items left, with the results appended so
far. -/
def UpdatePgBouncer_loop {σ : Type} (A : Apiserver σ) (request : UpdatePgBouncerRequest) :
    List Pgcluster → List UpdatePgBouncerDetail → σ → List UpdatePgBouncerDetail × σ
  | [], results, s => (results, s)
  | cluster :: rest, results, s =>
    let result : UpdatePgBouncerDetail := ⟨cluster.Spec.Name, true, false, ""⟩
    if !A.Enabled cluster.Spec.PgBouncer then
      UpdatePgBouncer_loop A request rest
        (results ++ [{ result with HasPgBouncer := false }]) s
    else
      -- the password rotation: on an error the result is appended, and the
      -- body goes on
      let rot : UpdatePgBouncerDetail × List UpdatePgBouncerDetail × σ :=
        if request.RotatePassword then
          let r := A.RotatePgBouncerPassword s cluster
          match r.1 with
          | some e =>
            ({ result with Error := true, ErrorMessage := e },
              results ++ [{ result with Error := true, ErrorMessage := e }], r.2)
          | none => (result, results, r.2)
        else (result, results, s)
      let resources0 : List (String × String) := []
      let resources1 :=
        if request.CPURequest ≠ "" then
          mapSet resources0 ResourceCPU (A.ParseQuantity request.CPURequest)
        else resources0
      let resources :=
        if request.MemoryRequest ≠ "" then
          mapSet resources1 ResourceMemory (A.ParseQuantity request.MemoryRequest)
        else resources1
      let cluster1 : Pgcluster :=
        if resources.length > 0 then
          match cluster.Spec.PgBouncer.Resources with
          | none =>
            { cluster with Spec := { cluster.Spec with
                PgBouncer := { cluster.Spec.PgBouncer with Resources := some resources } } }
          | some old =>
            { cluster with Spec := { cluster.Spec with
                PgBouncer := { cluster.Spec.PgBouncer with
                  Resources := some (resources.foldl (fun m kv => mapSet m kv.1 kv.2) old) } } }
        else cluster
      let cluster2 : Pgcluster :=
        if request.Replicas > 0 then
          { cluster1 with Spec := { cluster1.Spec with
              PgBouncer := { cluster1.Spec.PgBouncer with Replicas := request.Replicas } } }
        else cluster1
      let u := A.Updatepgcluster rot.2.2 cluster2 cluster2.Name cluster2.Namespace
      match u.1 with
      | some e =>
        UpdatePgBouncer_loop A request rest
          (rot.2.1 ++ [{ rot.1 with Error := true, ErrorMessage := e }]) u.2
      | none =>
        UpdatePgBouncer_loop A request rest (rot.2.1 ++ [rot.1]) u.2

/-- `UpdatePgBouncer(request, namespace, pgouser)`: the response and the store
state it leaves. -/
def UpdatePgBouncer {σ : Type} (A : Apiserver σ) (s : σ) (request : UpdatePgBouncerRequest)
    (_namespace _pgouser : String) : UpdatePgBouncerResponse × σ :=
  match A.ValidateQuantity request.CPURequest with
  | some e => (⟨[], ⟨StatusCode.Error, A.ErrMessageCPURequest request.CPURequest e⟩⟩, s)
  | none =>
    match A.ValidateQuantity request.MemoryRequest with
    | some e =>
      (⟨[], ⟨StatusCode.Error, A.ErrMessageMemoryRequest request.MemoryRequest e⟩⟩, s)
    | none =>
      if request.Replicas < 0 then
        (⟨[], ⟨StatusCode.Error, A.ErrMessageReplicas 1⟩⟩, s)
      else
        let g := getClusterList A s request.Namespace request.ClusterNames request.Selector
        match g.1.2 with
        | some e => (⟨[], ⟨StatusCode.Error, e⟩⟩, g.2)
        | none =>
          let hs := A.PGClusterListHasStandby g.1.1
          if hs.1 then
            (⟨[], ⟨StatusCode.Error,
              "Request rejected, unable to update pgbouncer for clusters " ++
                String.intercalate "," hs.2 ++ ": " ++ A.ErrStandbyNotAllowed ++ "."⟩⟩, g.2)
          else
            let l := UpdatePgBouncer_loop A request g.1.1 [] g.2
            (⟨l.1, ⟨StatusCode.Ok, ""⟩⟩, l.2)

/-! ## A cluster store in memory, for the concrete runs -/

/-- A cluster of the given namespace and name with the given number of
pgbouncer replicas. -/
def mkCluster (ns name : String) (replicas : Int) : Pgcluster :=
  ⟨name, ns, ⟨name, ns, ⟨replicas, none⟩⟩⟩

/-- The first cluster of the list with the given name and namespace. -/
def clusterFind : List Pgcluster → String → String → Option Pgcluster
  | [], _, _ => none
  | c :: cs, name, ns =>
    if c.Name = name ∧ c.Namespace = ns then some c else clusterFind cs name ns

/-- Collaborators over a list of stored clusters: every quantity is valid, no
cluster is a standby, pgbouncer is enabled when it has replicas, a selector
selects the stored clusters of the namespace, the lookup of a missing cluster
reports not found with the error `notFoundErr`, and the password rotation and
the cluster update return `rotateErr` and `updateErr`. -/
def memApi (notFoundErr rotateErr updateErr : Option String) : Apiserver (List Pgcluster) where
  ValidateQuantity := fun _ => none
  ParseQuantity := fun q => q
  ErrMessageCPURequest := fun q e => "invalid CPU request " ++ q ++ ": " ++ e
  ErrMessageMemoryRequest := fun q e => "invalid memory request " ++ q ++ ": " ++ e
  ErrMessageReplicas := fun _ => "invalid number of replicas"
  ErrStandbyNotAllowed := "not allowed when standby mode is enabled"
  PGClusterListHasStandby := fun _ => (false, [])
  Enabled := fun p => decide (p.Replicas > 0)
  GetpgclustersBySelector := fun s _ ns =>
    (⟨none, s.filter (fun c => decide (c.Namespace = ns))⟩, s)
  Getpgcluster := fun s name ns =>
    match clusterFind s name ns with
    | some c => (⟨true, none, c⟩, s)
    | none => (⟨false, notFoundErr, zeroPgcluster⟩, s)
  RotatePgBouncerPassword := fun s _ => (rotateErr, s)
  Updatepgcluster := fun s _ _ _ => (updateErr, s)

end PgbouncerService

namespace PgtaskController

/-! ## The work queue and the worker pool

The work queue is the client-go `workqueue`, outside the source files; its
state and operations follow section 4.3 of the specification. Each operation
is one atomic step, so a run of the controller with any number of workers is
a sequence of events: an Add notification (`onAdd`), a worker calling
`Queue.Get` at the head of `processNextItem`, a worker running the rest of
`processNextItem` with its deferred `Queue.Done`, and the shutdown. -/

/-- Modelled from the spec: the Work Queue internal state, three logical sets
over keys, `pending` (ready to be handed to a worker, in order), `inFlight`
(being processed) and `dirty` (marked for re-processing), and the draining
mode set by `ShutDown`. -/
structure WorkQueue where
  pending : List String
  inFlight : List String
  dirty : List String
  shuttingDown : Bool
  deriving DecidableEq, Repr

/-- The queue of a controller that starts. -/
def WorkQueue.empty : WorkQueue := ⟨[], [], [], false⟩

/-- Modelled from the spec: `Add(key)`: if `key ∈ inFlight`, mark it dirty and
return; else if `key ∉ pending`, insert into `pending`. `Add` after shutdown
is a no-op. -/
def WorkQueue.Add (q : WorkQueue) (key : String) : WorkQueue :=
  if q.shuttingDown then q
  else if key ∈ q.inFlight then
    if key ∈ q.dirty then q else { q with dirty := key :: q.dirty }
  else if key ∈ q.pending then q
  else { q with pending := q.pending ++ [key] }

/-- What a call of `Get` does: it hands out a key, or reports the shutdown, or
blocks. -/
inductive QueueGet
  /-- A key is handed out, `shuttingDown = false`. -/
  | item (key : String)
  /-- The "shutting down" signal. -/
  | quit
  /-- The queue is empty and not shut down: the caller blocks. -/
  | blocks
  deriving DecidableEq, Repr

/-- Modelled from the spec: `Get()`: blocks until `pending` is non-empty or the
queue is shut down; on success, moves the key from `pending` to `inFlight`
and returns it; on shutdown with no remaining pending keys, returns the
"shutting down" signal. -/
def WorkQueue.Get (q : WorkQueue) : QueueGet × WorkQueue :=
  match q.pending with
  | key :: rest => (QueueGet.item key, { q with pending := rest, inFlight := key :: q.inFlight })
  | [] => if q.shuttingDown then (QueueGet.quit, q) else (QueueGet.blocks, q)

/-- Modelled from the spec: `Done(key)`: removes `key` from `inFlight`; if it
was marked dirty, re-inserts it into `pending` and clears the dirty flag;
otherwise the key is fully retired. -/
def WorkQueue.Done (q : WorkQueue) (key : String) : WorkQueue :=
  if key ∈ q.dirty then
    { q with
      inFlight := q.inFlight.filter (fun k => decide (k ≠ key))
      pending := q.pending ++ [key]
      dirty := q.dirty.filter (fun k => decide (k ≠ key)) }
  else
    { q with inFlight := q.inFlight.filter (fun k => decide (k ≠ key)) }

/-- Modelled from the spec: `ShutDown()`: flips the queue to draining mode. -/
def WorkQueue.ShutDown (q : WorkQueue) : WorkQueue :=
  { q with shuttingDown := true }

/-- The effect on the queue of a call the controller makes. -/
def queueCall (q : WorkQueue) : Call → WorkQueue
  | Call.QueueAdd key => q.Add key
  | Call.QueueDone key => q.Done key
  | _ => q

/-- A worker running `RunWorker`: about to call `Queue.Get`, or inside
`processNextItem` with the key `Get` returned, or out of its loop. -/
inductive Worker
  /-- Between two calls of `processNextItem`. -/
  | idle
  /-- Executing `processNextItem` for the key. -/
  | busy (key : String)
  /-- The loop `for c.processNextItem()` has ended. -/
  | stopped
  deriving DecidableEq, Repr

/-- The shared queue and the workers, by worker number. -/
structure System where
  queue : WorkQueue
  worker : Nat → Worker

/-- The controller at its start: an empty queue, every worker idle. -/
def System.init : System := ⟨WorkQueue.empty, fun _ => Worker.idle⟩

/-- The atomic steps of a run, over the store states `σ`. -/
inductive Event (σ : Type)
  /-- The informer calls `onAdd` for the task. -/
  | onAdd (task : Pgtask)
  /-- Worker `w` calls `c.Queue.Get()` at the head of `processNextItem`. -/
  | get (w : Nat)
  /-- Worker `w` runs the rest of `processNextItem` for the key it holds,
  against the store state `s`, up to and including the deferred `Queue.Done`. -/
  | finish (w : Nat) (s : σ)
  /-- The routine `waitForShutdown` calls `c.Queue.ShutDown()`. -/
  | shutDown

/-- One step of the controller. An event that cannot happen in the state (a
`Get` by a worker that is not idle or that blocks, a `finish` by a worker that
holds no key) leaves the state as it is. A worker leaves its loop when
`processNextItem` does not return true. -/
def step {σ : Type} (K : Kubeapi σ) (S : System) : Event σ → System
  | Event.onAdd task => { S with queue := (onAdd task).1.foldl queueCall S.queue }
  | Event.get w =>
    match S.worker w with
    | Worker.idle =>
      match S.queue.Get with
      | (QueueGet.item key, q) => ⟨q, Function.update S.worker w (Worker.busy key)⟩
      | (QueueGet.quit, q) => ⟨q, Function.update S.worker w Worker.stopped⟩
      | (QueueGet.blocks, _) => S
    | _ => S
  | Event.finish w s =>
    match S.worker w with
    | Worker.busy key =>
      ⟨(processNextItem K s key false).calls.foldl queueCall S.queue,
        Function.update S.worker w
          (if (processNextItem K s key false).ret = some true then Worker.idle
            else Worker.stopped)⟩
    | _ => S
  | Event.shutDown => { S with queue := S.queue.ShutDown }

/-- The state after a sequence of events. -/
def run {σ : Type} (K : Kubeapi σ) (S : System) (es : List (Event σ)) : System :=
  es.foldl (step K) S

/-- Is the event the end of `processNextItem` in worker `w`? -/
def Event.isFinishOf {σ : Type} (w : Nat) : Event σ → Bool
  | Event.finish v _ => decide (v = w)
  | _ => false

/-- The invariant of the queue: `pending` holds no key twice, no key is both
pending and in flight, a dirty key is in flight, and every key has the
separator `/`. -/
structure QueueInv (q : WorkQueue) : Prop where
  pnodup : q.pending.Nodup
  disj : ∀ k ∈ q.pending, k ∉ q.inFlight
  dsub : ∀ k ∈ q.dirty, k ∈ q.inFlight
  sep : ∀ k, k ∈ q.pending ∨ k ∈ q.inFlight → '/' ∈ k.data

/-- The invariant of the controller: the invariant of the queue, the key a
worker holds is in flight, and no two workers hold one key. -/
structure SystemInv (S : System) : Prop where
  queue : QueueInv S.queue
  held : ∀ w k, S.worker w = Worker.busy k → k ∈ S.queue.inFlight
  excl : ∀ w1 w2 k, S.worker w1 = Worker.busy k → S.worker w2 = Worker.busy k → w1 = w2

/-! ## Shared lemmas -/

theorem splitChars_ne_nil (sep : Char) (l : List Char) : splitChars sep l ≠ [] := by
  cases l with
  | nil => simp [splitChars]
  | cons c cs =>
    unfold splitChars
    split_ifs
    · simp
    · split <;> simp

theorem splitChars_length (sep : Char) (l : List Char) :
    (splitChars sep l).length = l.count sep + 1 := by
  induction l with
  | nil => simp [splitChars]
  | cons c cs ih =>
    unfold splitChars
    by_cases hc : c = sep
    · subst hc
      simp [ih]
    · have hne : splitChars sep cs ≠ [] := splitChars_ne_nil sep cs
      rw [if_neg hc]
      cases hs : splitChars sep cs with
      | nil => exact absurd hs hne
      | cons p ps =>
        rw [hs] at ih
        simp only [List.length_cons] at ih ⊢
        rw [List.count_cons_of_ne (fun h => hc h.symm)]
        exact ih

theorem strings_Split_of_mem (key : String) (h : '/' ∈ key.data) :
    ∃ ns name rest, strings_Split key '/' = ns :: name :: rest := by
  have hlen : (strings_Split key '/').length = key.data.count '/' + 1 := by
    simp [strings_Split, splitChars_length]
  have hpos : 0 < key.data.count '/' := List.count_pos_iff.mpr h
  match hs : strings_Split key '/' with
  | [] => rw [hs] at hlen; simp at hlen
  | [_] => rw [hs] at hlen; simp at hlen; omega
  | ns :: name :: rest => exact ⟨ns, name, rest, rfl⟩

theorem strings_Split_of_not_mem (key : String) (h : '/' ∉ key.data) :
    ∃ part, strings_Split key '/' = [part] := by
  have hlen : (strings_Split key '/').length = key.data.count '/' + 1 := by
    simp [strings_Split, splitChars_length]
  rw [List.count_eq_zero_of_not_mem h] at hlen
  match hs : strings_Split key '/' with
  | [] => rw [hs] at hlen; simp at hlen
  | [part] => exact ⟨part, rfl⟩
  | _ :: _ :: _ => rw [hs] at hlen; simp at hlen

theorem dupeFailover_calls {σ : Type} (K : Kubeapi σ) (s : σ) (task : Pgtask) (ns : String) :
    (dupeFailover K s task ns).calls = [Call.Getpgtask task.Spec.Name ns] := by
  unfold dupeFailover
  simp only []
  split_ifs <;> rfl

theorem dupeDeleteData_calls {σ : Type} (K : Kubeapi σ) (s : σ) (task : Pgtask)
    (ns : String) :
    (dupeDeleteData K s task ns).calls = [Call.Getpgtask task.Spec.Name ns] := by
  unfold dupeDeleteData
  simp only []
  split_ifs <;> rfl

theorem dupeFailover_dupe {σ : Type} (K : Kubeapi σ) (s : σ) (task : Pgtask) (ns : String) :
    (dupeFailover K s task ns).dupe =
      ((K.Getpgtask s task.Spec.Name ns).1.found &&
        decide (mapIndex (K.Getpgtask s task.Spec.Name ns).1.task.Spec.Parameters
          LABEL_FAILOVER_STARTED ≠ "")) := by
  unfold dupeFailover
  simp only []
  split_ifs with h1 h2 <;> simp_all

theorem dupeDeleteData_dupe {σ : Type} (K : Kubeapi σ) (s : σ) (task : Pgtask)
    (ns : String) :
    (dupeDeleteData K s task ns).dupe =
      ((K.Getpgtask s task.Spec.Name ns).1.found &&
        decide (mapIndex (K.Getpgtask s task.Spec.Name ns).1.task.Spec.Parameters
          LABEL_DELETE_DATA_STARTED ≠ "")) := by
  unfold dupeDeleteData
  simp only []
  split_ifs with h1 h2 <;> simp_all

/-- Case analysis on the switch: it makes no call, or one handler call, or the
fetch of a guard, or the fetch of a guard followed by one handler call. -/
theorem processNextItem_switch_cases {σ : Type} (K : Kubeapi σ) (s : σ) (t : Pgtask)
    (ns : String) (P : List Call → Prop) (h0 : P [])
    (h1 : ∀ h : Handler, P [Call.Handle h ns t])
    (h2 : P [Call.Getpgtask t.Spec.Name ns])
    (h3 : ∀ h : Handler, P ([Call.Getpgtask t.Spec.Name ns] ++ [Call.Handle h ns t])) :
    P (processNextItem_switch K s t ns) := by
  unfold processNextItem_switch
  by_cases c1 : t.Spec.TaskType = PgtaskMinorUpgrade
  · rw [if_pos c1]; exact h1 _
  rw [if_neg c1]
  by_cases c2 : t.Spec.TaskType = PgtaskFailover
  · rw [if_pos c2]
    simp only []
    rw [dupeFailover_calls]
    by_cases d : (!(dupeFailover K s t ns).dupe) = true
    · rw [if_pos d]; exact h3 _
    · rw [if_neg d]; exact h2
  rw [if_neg c2]
  by_cases c3 : t.Spec.TaskType = PgtaskDeleteData
  · rw [if_pos c3]
    simp only []
    rw [dupeDeleteData_calls]
    by_cases d : (!(dupeDeleteData K s t ns).dupe) = true
    · rw [if_pos d]; exact h3 _
    · rw [if_neg d]; exact h2
  rw [if_neg c3]
  by_cases c4 : t.Spec.TaskType = PgtaskDeleteBackups
  · rw [if_pos c4]; exact h1 _
  rw [if_neg c4]
  by_cases c5 : t.Spec.TaskType = PgtaskBackrest
  · rw [if_pos c5]; exact h1 _
  rw [if_neg c5]
  by_cases c6 : t.Spec.TaskType = PgtaskBackrestRestore
  · rw [if_pos c6]; exact h1 _
  rw [if_neg c6]
  by_cases c7 : t.Spec.TaskType = PgtaskpgDump
  · rw [if_pos c7]; exact h1 _
  rw [if_neg c7]
  by_cases c8 : t.Spec.TaskType = PgtaskpgRestore
  · rw [if_pos c8]; exact h1 _
  rw [if_neg c8]
  by_cases c9 : t.Spec.TaskType = PgtaskAutoFailover
  · rw [if_pos c9]; exact h0
  rw [if_neg c9]
  by_cases c10 : t.Spec.TaskType = PgtaskWorkflow
  · rw [if_pos c10]; exact h0
  rw [if_neg c10]
  by_cases c11 : t.Spec.TaskType = PgtaskCloneStep1 ∨ t.Spec.TaskType = PgtaskCloneStep2
      ∨ t.Spec.TaskType = PgtaskCloneStep3
  · rw [if_pos c11]; exact h1 _
  · rw [if_neg c11]; exact h0

/-- The switch calls neither `Queue.Done` nor `PatchpgtaskStatus`. -/
theorem processNextItem_switch_kinds {σ : Type} (K : Kubeapi σ) (s : σ) (t : Pgtask)
    (ns : String) :
    ∀ c ∈ processNextItem_switch K s t ns, c.isQueueDone = false ∧ c.isPatch = false := by
  apply processNextItem_switch_cases K s t ns
    (fun l => ∀ c ∈ l, c.isQueueDone = false ∧ c.isPatch = false)
  · intro c hc
    exact absurd hc (List.not_mem_nil c)
  · intro h c hc
    rw [List.mem_singleton] at hc
    subst hc
    exact ⟨rfl, rfl⟩
  · intro c hc
    rw [List.mem_singleton] at hc
    subst hc
    exact ⟨rfl, rfl⟩
  · intro h c hc
    rw [List.mem_append, List.mem_singleton, List.mem_singleton] at hc
    rcases hc with hc | hc <;> subst hc <;> exact ⟨rfl, rfl⟩

/-- The switch on a type that has one handler and no guard. -/
theorem processNextItem_switch_direct {σ : Type} (K : Kubeapi σ) (s : σ) (t : Pgtask)
    (ns : String) :
    (t.Spec.TaskType = PgtaskMinorUpgrade →
      processNextItem_switch K s t ns = [Call.Handle Handler.AddUpgrade ns t]) ∧
    (t.Spec.TaskType = PgtaskDeleteBackups →
      processNextItem_switch K s t ns = [Call.Handle Handler.RemoveBackups ns t]) ∧
    (t.Spec.TaskType = PgtaskBackrest →
      processNextItem_switch K s t ns = [Call.Handle Handler.Backrest ns t]) ∧
    (t.Spec.TaskType = PgtaskBackrestRestore →
      processNextItem_switch K s t ns = [Call.Handle Handler.BackrestRestore ns t]) ∧
    (t.Spec.TaskType = PgtaskpgDump →
      processNextItem_switch K s t ns = [Call.Handle Handler.Dump ns t]) ∧
    (t.Spec.TaskType = PgtaskpgRestore →
      processNextItem_switch K s t ns = [Call.Handle Handler.PgdumpRestore ns t]) ∧
    (t.Spec.TaskType = PgtaskCloneStep1 →
      processNextItem_switch K s t ns = [Call.Handle Handler.Clone ns t]) ∧
    (t.Spec.TaskType = PgtaskCloneStep2 →
      processNextItem_switch K s t ns = [Call.Handle Handler.Clone ns t]) ∧
    (t.Spec.TaskType = PgtaskCloneStep3 →
      processNextItem_switch K s t ns = [Call.Handle Handler.Clone ns t]) := by
  refine ⟨?_, ?_, ?_, ?_, ?_, ?_, ?_, ?_, ?_⟩ <;> intro h <;>
    unfold processNextItem_switch <;> rw [h] <;>
    simp [PgtaskMinorUpgrade, PgtaskFailover, PgtaskDeleteData, PgtaskDeleteBackups,
      PgtaskBackrest, PgtaskBackrestRestore, PgtaskpgDump, PgtaskpgRestore, PgtaskAutoFailover,
      PgtaskWorkflow, PgtaskCloneStep1, PgtaskCloneStep2, PgtaskCloneStep3]

/-- The switch on the two types that are only logged. -/
theorem processNextItem_switch_logged {σ : Type} (K : Kubeapi σ) (s : σ) (t : Pgtask)
    (ns : String) :
    (t.Spec.TaskType = PgtaskAutoFailover → processNextItem_switch K s t ns = []) ∧
    (t.Spec.TaskType = PgtaskWorkflow → processNextItem_switch K s t ns = []) := by
  refine ⟨?_, ?_⟩ <;> intro h <;>
    unfold processNextItem_switch <;> rw [h] <;>
    simp [PgtaskMinorUpgrade, PgtaskFailover, PgtaskDeleteData, PgtaskDeleteBackups,
      PgtaskBackrest, PgtaskBackrestRestore, PgtaskpgDump, PgtaskpgRestore, PgtaskAutoFailover,
      PgtaskWorkflow, PgtaskCloneStep1, PgtaskCloneStep2, PgtaskCloneStep3]

/-- The switch on the type failover: the guard, then the handler unless the
guard says duplicate. -/
theorem processNextItem_switch_failover {σ : Type} (K : Kubeapi σ) (s : σ) (t : Pgtask)
    (ns : String) (h : t.Spec.TaskType = PgtaskFailover) :
    processNextItem_switch K s t ns =
      if (dupeFailover K s t ns).dupe = true then [Call.Getpgtask t.Spec.Name ns]
      else [Call.Getpgtask t.Spec.Name ns, Call.Handle Handler.FailoverBase ns t] := by
  have hne : t.Spec.TaskType ≠ PgtaskMinorUpgrade := by
    rw [h]; decide
  unfold processNextItem_switch
  rw [if_neg hne, if_pos h]
  simp only []
  rw [dupeFailover_calls]
  cases (dupeFailover K s t ns).dupe <;> simp

/-- The switch on the type delete-data: the guard, then the handler unless the
guard says duplicate. -/
theorem processNextItem_switch_deleteData {σ : Type} (K : Kubeapi σ) (s : σ) (t : Pgtask)
    (ns : String) (h : t.Spec.TaskType = PgtaskDeleteData) :
    processNextItem_switch K s t ns =
      if (dupeDeleteData K s t ns).dupe = true then [Call.Getpgtask t.Spec.Name ns]
      else [Call.Getpgtask t.Spec.Name ns, Call.Handle Handler.RemoveData ns t] := by
  have hne1 : t.Spec.TaskType ≠ PgtaskMinorUpgrade := by
    rw [h]; decide
  have hne2 : t.Spec.TaskType ≠ PgtaskFailover := by
    rw [h]; decide
  unfold processNextItem_switch
  rw [if_neg hne1, if_neg hne2, if_pos h]
  simp only []
  rw [dupeDeleteData_calls]
  cases (dupeDeleteData K s t ns).dupe <;> simp

/-! ### The paths of `processNextItem` -/

/-- A key without two parts: the index panics before `Queue.Done` is deferred. -/
theorem processNextItem_one_part {σ : Type} (K : Kubeapi σ) (s : σ) (key part : String)
    (h : strings_Split key '/' = [part]) :
    processNextItem K s key false = ⟨none, []⟩ := by
  unfold processNextItem
  rw [h]
  rfl

/-- The fetch reports not found. -/
theorem processNextItem_not_found {σ : Type} (K : Kubeapi σ) (s : σ) (key ns name : String)
    (rest : List String) (h : strings_Split key '/' = ns :: name :: rest)
    (hf : (K.Getpgtask s name ns).1.found = false) :
    processNextItem K s key false =
      ⟨(K.Getpgtask s name ns).1.err.map (fun _ => false),
        [Call.Getpgtask name ns, Call.QueueDone key]⟩ := by
  unfold processNextItem
  rw [h]
  simp only [Bool.false_eq_true, if_false, hf, Bool.not_false, if_true]
  cases (K.Getpgtask s name ns).1.err <;> rfl

/-- The fetch reports found: the status patch, and the switch when the patch
returned no error. -/
theorem processNextItem_found {σ : Type} (K : Kubeapi σ) (s : σ) (key ns name : String)
    (rest : List String) (h : strings_Split key '/' = ns :: name :: rest)
    (hf : (K.Getpgtask s name ns).1.found = true) :
    processNextItem K s key false =
      match (K.PatchpgtaskStatus (K.Getpgtask s name ns).2 PgtaskStateProcessed
          "Successfully processed Pgtask by controller" (K.Getpgtask s name ns).1.task ns) with
      | (some _, _) =>
        ⟨some false, [Call.Getpgtask name ns,
          Call.PatchpgtaskStatus PgtaskStateProcessed
            "Successfully processed Pgtask by controller" (K.Getpgtask s name ns).1.task ns,
          Call.QueueDone key]⟩
      | (none, s2) =>
        ⟨some true, [Call.Getpgtask name ns,
          Call.PatchpgtaskStatus PgtaskStateProcessed
            "Successfully processed Pgtask by controller" (K.Getpgtask s name ns).1.task ns]
          ++ processNextItem_switch K s2 (K.Getpgtask s name ns).1.task ns
          ++ [Call.QueueDone key]⟩ := by
  unfold processNextItem
  rw [h]
  simp only [Bool.false_eq_true, if_false, hf, Bool.not_true]
  rcases hp : K.PatchpgtaskStatus (K.Getpgtask s name ns).2 PgtaskStateProcessed
      "Successfully processed Pgtask by controller" (K.Getpgtask s name ns).1.task ns
    with ⟨e, s2⟩
  cases e <;> rfl

/-! ## The worker loop and the deferred `Queue.Done` -/

/-- C1, evaluated at the failing input: the queue hands out the key `ns1/taskA`
(no shutdown, `quit = false`) and the store holds no such task; the fetch
reports not found with an error and `processNextItem` returns false, which
ends the loop of `RunWorker` although the queue was not shut down. -/
theorem processNextItem_false_without_shutdown :
    processNextItem memKube [] "ns1/taskA" false =
      ⟨some false, [Call.Getpgtask "taskA" "ns1", Call.QueueDone "ns1/taskA"]⟩ := by
  decide

/-- C2 as stated fails: for the key `taskA`, which has no separator, the index
`keyParts[1]` panics before `Queue.Done` is deferred, and `Queue.Done` is
never called. -/
theorem processNextItem_no_separator_no_done :
    (processNextItem memKube [mkTask "" "taskA" "taskA" PgtaskBackrest []] "taskA" false).ret
        = none ∧
      (processNextItem memKube [mkTask "" "taskA" "taskA" PgtaskBackrest []] "taskA"
        false).calls.count (Call.QueueDone "taskA") = 0 := by
  decide

/-- C2, amended: for every key that contains the separator `/` and every store,
`processNextItem` (not at shutdown) calls `Queue.Done` exactly once, on that
key, and as its last call, on every path. -/
theorem processNextItem_done_exactly_once {σ : Type} (K : Kubeapi σ) (s : σ) (key : String)
    (hkey : '/' ∈ key.data) :
    (processNextItem K s key false).calls.filter Call.isQueueDone = [Call.QueueDone key] ∧
      (processNextItem K s key false).calls.getLast? = some (Call.QueueDone key) := by
  obtain ⟨ns, name, rest, h⟩ := strings_Split_of_mem key hkey
  cases hf : (K.Getpgtask s name ns).1.found with
  | false =>
    rw [processNextItem_not_found K s key ns name rest h hf]
    exact ⟨rfl, rfl⟩
  | true =>
    rw [processNextItem_found K s key ns name rest h hf]
    rcases K.PatchpgtaskStatus (K.Getpgtask s name ns).2 PgtaskStateProcessed
        "Successfully processed Pgtask by controller" (K.Getpgtask s name ns).1.task ns
      with ⟨e, s2⟩
    cases e with
    | some e => exact ⟨rfl, rfl⟩
    | none =>
      have hsw : (processNextItem_switch K s2 (K.Getpgtask s name ns).1.task ns).filter
          Call.isQueueDone = [] := by
        rw [List.filter_eq_nil_iff]
        intro c hc
        rw [(processNextItem_switch_kinds K s2 _ ns c hc).1]
        exact Bool.false_ne_true
      constructor
      · simp only [List.filter_append, hsw]
        rfl
      · exact List.getLast?_concat _

/-- C2, amended, on the key `ns1/taskA` of a stored delete-data task. -/
theorem processNextItem_done_exactly_once_witness :
    '/' ∈ "ns1/taskA".data ∧
      ((processNextItem memKube [mkTask "ns1" "taskA" "taskA" PgtaskDeleteData []] "ns1/taskA"
          false).calls.filter Call.isQueueDone = [Call.QueueDone "ns1/taskA"] ∧
        (processNextItem memKube [mkTask "ns1" "taskA" "taskA" PgtaskDeleteData []] "ns1/taskA"
          false).calls.getLast? = some (Call.QueueDone "ns1/taskA")) :=
  ⟨by decide, processNextItem_done_exactly_once memKube
    [mkTask "ns1" "taskA" "taskA" PgtaskDeleteData []] "ns1/taskA" (by decide)⟩

/-! ## The admission filter `onAdd` -/

/-- C3: for every task whose state is Processed, `onAdd` makes no call at all,
so none to `Queue.Add`, and leaves the task as it is. -/
theorem onAdd_processed_not_enqueued (task : Pgtask)
    (h : task.Status.State = PgtaskStateProcessed) :
    onAdd task = ([], task) := by
  unfold onAdd
  rw [if_pos h]

/-- C3 on a Processed failover task. -/
theorem onAdd_processed_not_enqueued_witness :
    (⟨⟨"taskA", "ns1"⟩, ⟨"taskA", PgtaskFailover, []⟩, ⟨PgtaskStateProcessed, ""⟩⟩ :
        Pgtask).Status.State = PgtaskStateProcessed ∧
      onAdd ⟨⟨"taskA", "ns1"⟩, ⟨"taskA", PgtaskFailover, []⟩, ⟨PgtaskStateProcessed, ""⟩⟩ =
        ([], ⟨⟨"taskA", "ns1"⟩, ⟨"taskA", PgtaskFailover, []⟩, ⟨PgtaskStateProcessed, ""⟩⟩) :=
  ⟨rfl, onAdd_processed_not_enqueued _ rfl⟩

/-- C4: for every task whose state is not Processed, `onAdd` makes exactly one
call, `Queue.Add` with the key `namespace/name` of the task, and leaves the
task as it is. -/
theorem onAdd_enqueues_key_once (task : Pgtask)
    (h : task.Status.State ≠ PgtaskStateProcessed) :
    onAdd task =
      ([Call.QueueAdd (task.ObjectMeta.Namespace ++ "/" ++ task.ObjectMeta.Name)], task) := by
  unfold onAdd
  rw [if_neg h]
  rfl

/-- C4 on the Submitted task `ns1/taskA`. -/
theorem onAdd_enqueues_key_once_witness :
    (mkTask "ns1" "taskA" "taskA" PgtaskFailover []).Status.State ≠ PgtaskStateProcessed ∧
      onAdd (mkTask "ns1" "taskA" "taskA" PgtaskFailover []) =
        ([Call.QueueAdd "ns1/taskA"], mkTask "ns1" "taskA" "taskA" PgtaskFailover []) :=
  ⟨by decide, onAdd_enqueues_key_once (mkTask "ns1" "taskA" "taskA" PgtaskFailover [])
    (by decide)⟩

/-! ## Dispatch, guards and the status patch -/

/-- C5 as stated fails: the task `ns1/taskA` of type delete-data is stored with
a non-empty delete-data-started parameter, and its `Spec.Name` is `other`; the
guard fetches `other`, finds nothing, and the RemoveData handler is called once
all the same. -/
theorem processNextItem_marked_task_dispatched :
    mapIndex (fetched memKube
        [mkTask "ns1" "taskA" "other" PgtaskDeleteData [(LABEL_DELETE_DATA_STARTED, "true")]]
        "taskA" "ns1").task.Spec.Parameters LABEL_DELETE_DATA_STARTED = "true" ∧
      (processNextItem memKube
        [mkTask "ns1" "taskA" "other" PgtaskDeleteData [(LABEL_DELETE_DATA_STARTED, "true")]]
        "ns1/taskA" false).calls.filter Call.isHandle =
        [Call.Handle Handler.RemoveData "ns1"
          (mkTask "ns1" "taskA" "other" PgtaskDeleteData
            [(LABEL_DELETE_DATA_STARTED, "true")])] := by
  decide

/-- C5, amended: for every key of at least two parts whose fetch is found and
whose status patch succeeds, if the fetched task has type delete-data
(respectively failover), the handler calls are decided by the resource the
guard fetches under the `Spec.Name` of the task in the namespace of the key:
none when that fetch is found and carries a non-empty delete-data-started
(respectively failover-started) parameter, and otherwise exactly one call, to
RemoveData (respectively FailoverBase), with the namespace of the key and the
fetched task. -/
theorem processNextItem_guarded_dispatch {σ : Type} (K : Kubeapi σ) (s : σ)
    (key ns name : String) (rest : List String)
    (h : strings_Split key '/' = ns :: name :: rest)
    (hf : (fetched K s name ns).found = true)
    (hp : (patched K s name ns).1 = none) :
    ((fetched K s name ns).task.Spec.TaskType = PgtaskDeleteData →
      (processNextItem K s key false).calls.filter Call.isHandle =
        if (guardFetched K s name ns).found = true ∧
            mapIndex (guardFetched K s name ns).task.Spec.Parameters
              LABEL_DELETE_DATA_STARTED ≠ "" then []
        else [Call.Handle Handler.RemoveData ns (fetched K s name ns).task]) ∧
    ((fetched K s name ns).task.Spec.TaskType = PgtaskFailover →
      (processNextItem K s key false).calls.filter Call.isHandle =
        if (guardFetched K s name ns).found = true ∧
            mapIndex (guardFetched K s name ns).task.Spec.Parameters
              LABEL_FAILOVER_STARTED ≠ "" then []
        else [Call.Handle Handler.FailoverBase ns (fetched K s name ns).task]) := by
  unfold guardFetched
  unfold patched at hp ⊢
  unfold fetched at hf ⊢
  rw [processNextItem_found K s key ns name rest h hf]
  rcases hq : K.PatchpgtaskStatus (K.Getpgtask s name ns).2 PgtaskStateProcessed
      "Successfully processed Pgtask by controller" (K.Getpgtask s name ns).1.task ns
    with ⟨e, s2⟩
  rw [hq] at hp
  simp only at hp
  subst hp
  constructor
  · intro ht
    simp only []
    rw [processNextItem_switch_deleteData K s2 _ ns ht, dupeDeleteData_dupe]
    cases (K.Getpgtask s2 (K.Getpgtask s name ns).1.task.Spec.Name ns).1.found <;>
      by_cases hm : mapIndex
        (K.Getpgtask s2 (K.Getpgtask s name ns).1.task.Spec.Name ns).1.task.Spec.Parameters
        LABEL_DELETE_DATA_STARTED = "" <;>
      simp [hm, Call.isHandle]
  · intro ht
    simp only []
    rw [processNextItem_switch_failover K s2 _ ns ht, dupeFailover_dupe]
    cases (K.Getpgtask s2 (K.Getpgtask s name ns).1.task.Spec.Name ns).1.found <;>
      by_cases hm : mapIndex
        (K.Getpgtask s2 (K.Getpgtask s name ns).1.task.Spec.Name ns).1.task.Spec.Parameters
        LABEL_FAILOVER_STARTED = "" <;>
      simp [hm, Call.isHandle]

/-- C5, amended, on the scenario of the specification: the delete-data task
`ns1/taskA` carrying the marker is not dispatched. -/
theorem processNextItem_guarded_dispatch_witness :
    (processNextItem memKube
      [mkTask "ns1" "taskA" "taskA" PgtaskDeleteData [(LABEL_DELETE_DATA_STARTED, "true")]]
      "ns1/taskA" false).calls.filter Call.isHandle = [] := by
  have hw := (processNextItem_guarded_dispatch memKube
    [mkTask "ns1" "taskA" "taskA" PgtaskDeleteData [(LABEL_DELETE_DATA_STARTED, "true")]]
    "ns1/taskA" "ns1" "taskA" [] (by decide) (by decide) (by decide)).1 (by decide)
  rw [hw]
  decide

/-- C6 as stated fails: the fetch reports found together with a non-nil error,
and `processNextItem` goes on to patch the status and to call a handler. -/
theorem processNextItem_found_with_error_proceeds :
    (fetched foundWithErrKube () "taskA" "ns1").err = some "connection reset" ∧
      (processNextItem foundWithErrKube () "ns1/taskA" false).calls.filter Call.isPatch =
        [Call.PatchpgtaskStatus PgtaskStateProcessed
          "Successfully processed Pgtask by controller"
          (mkTask "ns1" "taskA" "taskA" PgtaskBackrest []) "ns1"] ∧
      (processNextItem foundWithErrKube () "ns1/taskA" false).calls.filter Call.isHandle =
        [Call.Handle Handler.Backrest "ns1"
          (mkTask "ns1" "taskA" "taskA" PgtaskBackrest [])] := by
  decide

/-- C6, amended: for every key of at least two parts whose fetch reports not
found, with or without an error, `processNextItem` makes the fetch and the
deferred `Queue.Done` and nothing else: no `PatchpgtaskStatus` call and no
handler call. -/
theorem processNextItem_not_found_aborts {σ : Type} (K : Kubeapi σ) (s : σ)
    (key ns name : String) (rest : List String)
    (h : strings_Split key '/' = ns :: name :: rest)
    (hf : (fetched K s name ns).found = false) :
    (processNextItem K s key false).calls = [Call.Getpgtask name ns, Call.QueueDone key] ∧
      (processNextItem K s key false).calls.filter Call.isPatch = [] ∧
      (processNextItem K s key false).calls.filter Call.isHandle = [] := by
  unfold fetched at hf
  rw [processNextItem_not_found K s key ns name rest h hf]
  exact ⟨rfl, rfl, rfl⟩

/-- C6, amended, on the key `ns1/taskA` and the empty store. -/
theorem processNextItem_not_found_aborts_witness :
    (fetched memKube [] "taskA" "ns1").found = false ∧
      (processNextItem memKube [] "ns1/taskA" false).calls =
        [Call.Getpgtask "taskA" "ns1", Call.QueueDone "ns1/taskA"] :=
  ⟨by decide, (processNextItem_not_found_aborts memKube [] "ns1/taskA" "ns1" "taskA" []
    (by decide) (by decide)).1⟩

/-- C7: for every key of at least two parts whose fetch is found,
`processNextItem` calls the fetch, then `PatchpgtaskStatus` with the state
Processed, the fixed message, the fetched task and the namespace of the key,
and after it no further `PatchpgtaskStatus`; every guard and handler call
comes after the patch; when the patch returned an error no handler is called;
and every status the run writes is Processed. -/
theorem processNextItem_patches_once_first {σ : Type} (K : Kubeapi σ) (s : σ)
    (key ns name : String) (rest : List String)
    (h : strings_Split key '/' = ns :: name :: rest)
    (hf : (fetched K s name ns).found = true) :
    ∃ after : List Call,
      (processNextItem K s key false).calls =
        Call.Getpgtask name ns ::
          Call.PatchpgtaskStatus PgtaskStateProcessed
            "Successfully processed Pgtask by controller" (fetched K s name ns).task ns ::
          after ∧
      (∀ c ∈ after, c.isPatch = false) ∧
      ((patched K s name ns).1 ≠ none → ∀ c ∈ after, c.isHandle = false) ∧
      (processNextItem K s key false).calls.filter Call.isPatch =
        [Call.PatchpgtaskStatus PgtaskStateProcessed
          "Successfully processed Pgtask by controller" (fetched K s name ns).task ns] ∧
      (∀ (st m : String) (t : Pgtask) (n : String),
        Call.PatchpgtaskStatus st m t n ∈ (processNextItem K s key false).calls →
          st = PgtaskStateProcessed) := by
  unfold patched
  unfold fetched at hf ⊢
  rw [processNextItem_found K s key ns name rest h hf]
  rcases K.PatchpgtaskStatus (K.Getpgtask s name ns).2 PgtaskStateProcessed
      "Successfully processed Pgtask by controller" (K.Getpgtask s name ns).1.task ns
    with ⟨e, s2⟩
  cases e with
  | some e =>
    refine ⟨[Call.QueueDone key], rfl, ?_, ?_, rfl, ?_⟩
    · intro c hc
      rw [List.mem_singleton] at hc
      subst hc
      rfl
    · intro _ c hc
      rw [List.mem_singleton] at hc
      subst hc
      rfl
    · intro st m t n hmem
      simp only [List.mem_cons, List.mem_singleton, List.not_mem_nil, or_false] at hmem
      rcases hmem with hmem | hmem | hmem
      · exact Call.noConfusion hmem
      · injection hmem
      · exact Call.noConfusion hmem
  | none =>
    have hk := processNextItem_switch_kinds K s2 (K.Getpgtask s name ns).1.task ns
    have hafter : ∀ c ∈ processNextItem_switch K s2 (K.Getpgtask s name ns).1.task ns ++
        [Call.QueueDone key], c.isPatch = false := by
      intro c hc
      rw [List.mem_append, List.mem_singleton] at hc
      rcases hc with hc | hc
      · exact (hk c hc).2
      · subst hc
        rfl
    refine ⟨processNextItem_switch K s2 (K.Getpgtask s name ns).1.task ns ++
      [Call.QueueDone key], rfl, hafter, ?_, ?_, ?_⟩
    · intro hne
      exact absurd rfl hne
    · have hnil : (processNextItem_switch K s2 (K.Getpgtask s name ns).1.task ns ++
          [Call.QueueDone key]).filter Call.isPatch = [] := by
        rw [List.filter_eq_nil_iff]
        intro c hc
        rw [hafter c hc]
        exact Bool.false_ne_true
      show List.filter Call.isPatch
        (Call.Getpgtask name ns ::
          Call.PatchpgtaskStatus PgtaskStateProcessed
            "Successfully processed Pgtask by controller" (K.Getpgtask s name ns).1.task ns ::
          (processNextItem_switch K s2 (K.Getpgtask s name ns).1.task ns ++
            [Call.QueueDone key])) = _
      rw [List.filter_cons_of_neg (by simp [Call.isPatch]),
        List.filter_cons_of_pos (by simp [Call.isPatch]), hnil]
    · intro st m t n hmem
      have hmem2 : Call.PatchpgtaskStatus st m t n ∈
          Call.Getpgtask name ns ::
          Call.PatchpgtaskStatus PgtaskStateProcessed
            "Successfully processed Pgtask by controller" (K.Getpgtask s name ns).1.task ns ::
          (processNextItem_switch K s2 (K.Getpgtask s name ns).1.task ns ++
            [Call.QueueDone key]) := hmem
      rw [List.mem_cons, List.mem_cons] at hmem2
      rcases hmem2 with hmem2 | hmem2 | hmem2
      · exact Call.noConfusion hmem2
      · injection hmem2
      · have := hafter _ hmem2
        simp [Call.isPatch] at this

/-- C7 on the key `ns1/taskA` of a stored backrest task. -/
theorem processNextItem_patches_once_first_witness :
    (fetched memKube [mkTask "ns1" "taskA" "taskA" PgtaskBackrest []] "taskA" "ns1").found
        = true ∧
      (processNextItem memKube [mkTask "ns1" "taskA" "taskA" PgtaskBackrest []] "ns1/taskA"
        false).calls.filter Call.isPatch =
        [Call.PatchpgtaskStatus PgtaskStateProcessed
          "Successfully processed Pgtask by controller"
          (fetched memKube [mkTask "ns1" "taskA" "taskA" PgtaskBackrest []] "taskA" "ns1").task
          "ns1"] := by
  obtain ⟨_, _, _, _, h4, _⟩ := processNextItem_patches_once_first memKube
    [mkTask "ns1" "taskA" "taskA" PgtaskBackrest []] "ns1/taskA" "ns1" "taskA" []
    (by decide) (by decide)
  exact ⟨by decide, h4⟩

/-- C8 as stated fails: for a stored task of type auto-failover, fetched and
patched without error, `processNextItem` calls no handler. -/
theorem processNextItem_autofailover_no_handler :
    (processNextItem memKube [mkTask "ns1" "taskA" "taskA" PgtaskAutoFailover []] "ns1/taskA"
      false) =
      ⟨some true, [Call.Getpgtask "taskA" "ns1",
        Call.PatchpgtaskStatus PgtaskStateProcessed
          "Successfully processed Pgtask by controller"
          (mkTask "ns1" "taskA" "taskA" PgtaskAutoFailover []) "ns1",
        Call.QueueDone "ns1/taskA"]⟩ := by
  decide

/-- C8, amended: for every key of at least two parts whose fetch is found and
whose status patch succeeds, a fetched task of type minor-upgrade,
delete-backups, backrest-backup, backrest-restore, pg-dump, pg-restore or
clone-step-1, -2, -3 gets exactly one handler call, to the handler of its type
(AddUpgrade, RemoveBackups, Backrest, backrest Restore, Dump, pgdump Restore,
Clone), with the namespace of the key and the fetched task, and no guard runs;
a task of type auto-failover or workflow gets no handler call. -/
theorem processNextItem_direct_dispatch {σ : Type} (K : Kubeapi σ) (s : σ)
    (key ns name : String) (rest : List String)
    (h : strings_Split key '/' = ns :: name :: rest)
    (hf : (fetched K s name ns).found = true)
    (hp : (patched K s name ns).1 = none) :
    (∀ (ty : String) (hd : Handler),
      (ty, hd) ∈ [(PgtaskMinorUpgrade, Handler.AddUpgrade),
        (PgtaskDeleteBackups, Handler.RemoveBackups),
        (PgtaskBackrest, Handler.Backrest),
        (PgtaskBackrestRestore, Handler.BackrestRestore),
        (PgtaskpgDump, Handler.Dump),
        (PgtaskpgRestore, Handler.PgdumpRestore),
        (PgtaskCloneStep1, Handler.Clone),
        (PgtaskCloneStep2, Handler.Clone),
        (PgtaskCloneStep3, Handler.Clone)] →
      (fetched K s name ns).task.Spec.TaskType = ty →
      processNextItem K s key false =
        ⟨some true, [Call.Getpgtask name ns,
          Call.PatchpgtaskStatus PgtaskStateProcessed
            "Successfully processed Pgtask by controller" (fetched K s name ns).task ns,
          Call.Handle hd ns (fetched K s name ns).task,
          Call.QueueDone key]⟩) ∧
    (∀ ty : String, ty ∈ [PgtaskAutoFailover, PgtaskWorkflow] →
      (fetched K s name ns).task.Spec.TaskType = ty →
      processNextItem K s key false =
        ⟨some true, [Call.Getpgtask name ns,
          Call.PatchpgtaskStatus PgtaskStateProcessed
            "Successfully processed Pgtask by controller" (fetched K s name ns).task ns,
          Call.QueueDone key]⟩) := by
  unfold patched at hp
  unfold fetched at hf ⊢
  rw [processNextItem_found K s key ns name rest h hf]
  rcases hq : K.PatchpgtaskStatus (K.Getpgtask s name ns).2 PgtaskStateProcessed
      "Successfully processed Pgtask by controller" (K.Getpgtask s name ns).1.task ns
    with ⟨e, s2⟩
  rw [hq] at hp
  simp only at hp
  subst hp
  have hd := processNextItem_switch_direct K s2 (K.Getpgtask s name ns).1.task ns
  have hl := processNextItem_switch_logged K s2 (K.Getpgtask s name ns).1.task ns
  obtain ⟨d1, d2, d3, d4, d5, d6, d7, d8, d9⟩ := hd
  obtain ⟨l1, l2⟩ := hl
  constructor
  · intro ty hd hmem ht
    simp only [List.mem_cons, List.mem_singleton, List.not_mem_nil, or_false, Prod.mk.injEq]
      at hmem
    simp only []
    rcases hmem with ⟨rfl, rfl⟩ | ⟨rfl, rfl⟩ | ⟨rfl, rfl⟩ | ⟨rfl, rfl⟩ | ⟨rfl, rfl⟩ |
      ⟨rfl, rfl⟩ | ⟨rfl, rfl⟩ | ⟨rfl, rfl⟩ | ⟨rfl, rfl⟩
    · rw [d1 ht]; rfl
    · rw [d2 ht]; rfl
    · rw [d3 ht]; rfl
    · rw [d4 ht]; rfl
    · rw [d5 ht]; rfl
    · rw [d6 ht]; rfl
    · rw [d7 ht]; rfl
    · rw [d8 ht]; rfl
    · rw [d9 ht]; rfl
  · intro ty hmem ht
    simp only [List.mem_cons, List.mem_singleton, List.not_mem_nil, or_false] at hmem
    simp only []
    rcases hmem with rfl | rfl
    · rw [l1 ht]; rfl
    · rw [l2 ht]; rfl

/-- C8, amended, on the key `ns1/taskA` of a stored pg-dump task. -/
theorem processNextItem_direct_dispatch_witness :
    processNextItem memKube [mkTask "ns1" "taskA" "taskA" PgtaskpgDump []] "ns1/taskA" false =
      ⟨some true, [Call.Getpgtask "taskA" "ns1",
        Call.PatchpgtaskStatus PgtaskStateProcessed
          "Successfully processed Pgtask by controller"
          (fetched memKube [mkTask "ns1" "taskA" "taskA" PgtaskpgDump []] "taskA" "ns1").task
          "ns1",
        Call.Handle Handler.Dump "ns1"
          (fetched memKube [mkTask "ns1" "taskA" "taskA" PgtaskpgDump []] "taskA" "ns1").task,
        Call.QueueDone "ns1/taskA"]⟩ :=
  (processNextItem_direct_dispatch memKube [mkTask "ns1" "taskA" "taskA" PgtaskpgDump []]
    "ns1/taskA" "ns1" "taskA" [] (by decide) (by decide) (by decide)).1
    PgtaskpgDump Handler.Dump (by decide) (by decide)

/-- C9 as stated fails: the failover task stored as `ns1/taskA` has the
`Spec.Name` `other` and carries the failover-started marker; `dupeFailover`
fetches `other` in `ns1`, not `taskA`, finds nothing and answers "not
duplicate", although the resource of the dequeued key carries the marker. -/
theorem dupeFailover_fetches_other_name :
    (dupeFailover memKube
        [mkTask "ns1" "taskA" "other" PgtaskFailover [(LABEL_FAILOVER_STARTED, "true")]]
        (mkTask "ns1" "taskA" "other" PgtaskFailover [(LABEL_FAILOVER_STARTED, "true")])
        "ns1").calls = [Call.Getpgtask "other" "ns1"] ∧
      (dupeFailover memKube
        [mkTask "ns1" "taskA" "other" PgtaskFailover [(LABEL_FAILOVER_STARTED, "true")]]
        (mkTask "ns1" "taskA" "other" PgtaskFailover [(LABEL_FAILOVER_STARTED, "true")])
        "ns1").dupe = false ∧
      (fetched memKube
        [mkTask "ns1" "taskA" "other" PgtaskFailover [(LABEL_FAILOVER_STARTED, "true")]]
        "taskA" "ns1").found = true ∧
      mapIndex (fetched memKube
        [mkTask "ns1" "taskA" "other" PgtaskFailover [(LABEL_FAILOVER_STARTED, "true")]]
        "taskA" "ns1").task.Spec.Parameters LABEL_FAILOVER_STARTED = "true" := by
  decide

/-- C9, amended: for every task, namespace and store, `dupeFailover` and
`dupeDeleteData` make one store fetch, of the name `Spec.Name` of the task
they are given in the namespace they are given (which `processNextItem` sets
to the fetched task and the namespace of the key), and their verdict is
computed from the parameters of the resource that fetch returns: duplicate
exactly when it is found with a non-empty marker. -/
theorem guards_fetch_by_spec_name {σ : Type} (K : Kubeapi σ) (s : σ) (task : Pgtask)
    (ns : String) :
    (dupeFailover K s task ns).calls = [Call.Getpgtask task.Spec.Name ns] ∧
      (dupeFailover K s task ns).dupe =
        ((K.Getpgtask s task.Spec.Name ns).1.found &&
          decide (mapIndex (K.Getpgtask s task.Spec.Name ns).1.task.Spec.Parameters
            LABEL_FAILOVER_STARTED ≠ "")) ∧
      (dupeDeleteData K s task ns).calls = [Call.Getpgtask task.Spec.Name ns] ∧
      (dupeDeleteData K s task ns).dupe =
        ((K.Getpgtask s task.Spec.Name ns).1.found &&
          decide (mapIndex (K.Getpgtask s task.Spec.Name ns).1.task.Spec.Parameters
            LABEL_DELETE_DATA_STARTED ≠ "")) :=
  ⟨dupeFailover_calls K s task ns, dupeFailover_dupe K s task ns,
    dupeDeleteData_calls K s task ns, dupeDeleteData_dupe K s task ns⟩

/-- C10: for every task, namespace and store: if the fetch of the guard reports
not found, whatever its error, `dupeFailover` and `dupeDeleteData` return
false, and the switch then calls the handler on a task of their type; if the
fetch reports found, `dupeFailover` (respectively `dupeDeleteData`) returns
true exactly when the fetched parameters hold a non-empty value under
`LABEL_FAILOVER_STARTED` (respectively `LABEL_DELETE_DATA_STARTED`). -/
theorem guards_verdict {σ : Type} (K : Kubeapi σ) (s : σ) (task : Pgtask) (ns : String) :
    ((K.Getpgtask s task.Spec.Name ns).1.found = false →
      (dupeFailover K s task ns).dupe = false ∧
      (dupeDeleteData K s task ns).dupe = false ∧
      (task.Spec.TaskType = PgtaskFailover →
        processNextItem_switch K s task ns =
          [Call.Getpgtask task.Spec.Name ns, Call.Handle Handler.FailoverBase ns task]) ∧
      (task.Spec.TaskType = PgtaskDeleteData →
        processNextItem_switch K s task ns =
          [Call.Getpgtask task.Spec.Name ns, Call.Handle Handler.RemoveData ns task])) ∧
    ((K.Getpgtask s task.Spec.Name ns).1.found = true →
      ((dupeFailover K s task ns).dupe = true ↔
        mapIndex (K.Getpgtask s task.Spec.Name ns).1.task.Spec.Parameters
          LABEL_FAILOVER_STARTED ≠ "") ∧
      ((dupeDeleteData K s task ns).dupe = true ↔
        mapIndex (K.Getpgtask s task.Spec.Name ns).1.task.Spec.Parameters
          LABEL_DELETE_DATA_STARTED ≠ "")) := by
  constructor
  · intro hf
    have h1 : (dupeFailover K s task ns).dupe = false := by
      rw [dupeFailover_dupe, hf]; rfl
    have h2 : (dupeDeleteData K s task ns).dupe = false := by
      rw [dupeDeleteData_dupe, hf]; rfl
    refine ⟨h1, h2, ?_, ?_⟩
    · intro ht
      rw [processNextItem_switch_failover K s task ns ht, h1]
      rfl
    · intro ht
      rw [processNextItem_switch_deleteData K s task ns ht, h2]
      rfl
  · intro hf
    rw [dupeFailover_dupe, dupeDeleteData_dupe, hf]
    simp

/-- C10 on a store without the task (not found, with an error) and on a store
holding the task with the failover marker. -/
theorem guards_verdict_witness :
    (dupeFailover memKube [] (mkTask "ns1" "taskA" "taskA" PgtaskFailover []) "ns1").dupe
        = false ∧
      (dupeFailover memKube
        [mkTask "ns1" "taskA" "taskA" PgtaskFailover [(LABEL_FAILOVER_STARTED, "true")]]
        (mkTask "ns1" "taskA" "taskA" PgtaskFailover []) "ns1").dupe = true :=
  ⟨((guards_verdict memKube [] (mkTask "ns1" "taskA" "taskA" PgtaskFailover []) "ns1").1
      (by decide)).1,
    ((guards_verdict memKube
      [mkTask "ns1" "taskA" "taskA" PgtaskFailover [(LABEL_FAILOVER_STARTED, "true")]]
      (mkTask "ns1" "taskA" "taskA" PgtaskFailover []) "ns1").2 (by decide)).1.mpr
      (by decide)⟩

/-! ## Unrecognized task types -/

/-- The switch on a type that no case names: the default case, which only logs. -/
theorem processNextItem_switch_unknown {σ : Type} (K : Kubeapi σ) (s : σ) (t : Pgtask)
    (ns : String) (h : t.Spec.TaskType ∉ recognizedTaskTypes) :
    processNextItem_switch K s t ns = [] := by
  simp only [recognizedTaskTypes, List.mem_cons, List.mem_singleton, List.not_mem_nil,
    or_false, not_or] at h
  obtain ⟨c1, c2, c3, c4, c5, c6, c7, c8, c9, c10, c11, c12, c13⟩ := h
  have hclone : ¬ (t.Spec.TaskType = PgtaskCloneStep1 ∨ t.Spec.TaskType = PgtaskCloneStep2
      ∨ t.Spec.TaskType = PgtaskCloneStep3) := by
    rintro (hc | hc | hc)
    · exact c11 hc
    · exact c12 hc
    · exact c13 hc
  unfold processNextItem_switch
  rw [if_neg c1, if_neg c2, if_neg c3, if_neg c4, if_neg c5, if_neg c6, if_neg c7, if_neg c8,
    if_neg c9, if_neg c10, if_neg hclone]

/-- C11 as stated fails: the fetched task has the type `vacuum`, which is not
recognized, and the status patch returns an error; `processNextItem` returns
false, not true. -/
theorem processNextItem_unknown_type_patch_error :
    (fetched patchFailKube () "taskA" "ns1").found = true ∧
      (fetched patchFailKube () "taskA" "ns1").task.Spec.TaskType ∉ recognizedTaskTypes ∧
      (processNextItem patchFailKube () "ns1/taskA" false).ret = some false := by
  decide

/-- C11, amended: for every key of at least two parts whose fetch is found with
a task whose type is not recognized, `processNextItem` calls the fetch, the
status patch to Processed with the fixed message, and the deferred
`Queue.Done`, and nothing else: no guard and no handler; and when the status
patch returned no error it returns true. -/
theorem processNextItem_unknown_type_noop {σ : Type} (K : Kubeapi σ) (s : σ)
    (key ns name : String) (rest : List String)
    (h : strings_Split key '/' = ns :: name :: rest)
    (hf : (fetched K s name ns).found = true)
    (ht : (fetched K s name ns).task.Spec.TaskType ∉ recognizedTaskTypes) :
    (processNextItem K s key false).calls =
        [Call.Getpgtask name ns,
          Call.PatchpgtaskStatus PgtaskStateProcessed
            "Successfully processed Pgtask by controller" (fetched K s name ns).task ns,
          Call.QueueDone key] ∧
      ((patched K s name ns).1 = none → (processNextItem K s key false).ret = some true) := by
  unfold patched
  unfold fetched at hf ht ⊢
  rw [processNextItem_found K s key ns name rest h hf]
  rcases K.PatchpgtaskStatus (K.Getpgtask s name ns).2 PgtaskStateProcessed
      "Successfully processed Pgtask by controller" (K.Getpgtask s name ns).1.task ns
    with ⟨e, s2⟩
  cases e with
  | some e =>
    refine ⟨rfl, ?_⟩
    intro hne
    exact absurd hne (Option.some_ne_none e)
  | none =>
    refine ⟨?_, fun _ => rfl⟩
    simp only []
    rw [processNextItem_switch_unknown K s2 _ ns ht]
    rfl

/-- C11, amended, on the key `ns1/taskA` of a stored task of the type `vacuum`. -/
theorem processNextItem_unknown_type_noop_witness :
    (processNextItem memKube [mkTask "ns1" "taskA" "taskA" "vacuum" []] "ns1/taskA" false).ret
        = some true ∧
      (processNextItem memKube [mkTask "ns1" "taskA" "taskA" "vacuum" []] "ns1/taskA"
        false).calls =
        [Call.Getpgtask "taskA" "ns1",
          Call.PatchpgtaskStatus PgtaskStateProcessed
            "Successfully processed Pgtask by controller"
            (fetched memKube [mkTask "ns1" "taskA" "taskA" "vacuum" []] "taskA" "ns1").task
            "ns1",
          Call.QueueDone "ns1/taskA"] :=
  ⟨(processNextItem_unknown_type_noop memKube [mkTask "ns1" "taskA" "taskA" "vacuum" []]
      "ns1/taskA" "ns1" "taskA" [] (by decide) (by decide) (by decide)).2 (by decide),
    (processNextItem_unknown_type_noop memKube [mkTask "ns1" "taskA" "taskA" "vacuum" []]
      "ns1/taskA" "ns1" "taskA" [] (by decide) (by decide) (by decide)).1⟩

end PgtaskController

namespace PgbouncerService

/-! ## The cluster list and the results of `UpdatePgBouncer` -/

/-- The loop over the cluster names returns from inside only with an empty
list, and with the error of the lookup; run to its end it keeps the items it
started with. -/
theorem getClusterList_loop_spec {σ : Type} (A : Apiserver σ) (ns : String)
    (hA : ∀ (s : σ) (name : String), (A.Getpgcluster s name ns).1.found = false →
      (A.Getpgcluster s name ns).1.err ≠ none)
    (clusterNames : List String) :
    ∀ (items : List Pgcluster) (s : σ),
      (∀ l err, (getClusterList_loop A ns clusterNames items s).1 = LoopEnd.returned l err →
        l = [] ∧ err ≠ none) ∧
      (∀ l, (getClusterList_loop A ns clusterNames items s).1 = LoopEnd.finished l →
        items.length + clusterNames.length = l.length) := by
  induction clusterNames with
  | nil =>
    intro items s
    constructor
    · intro l err h
      simp [getClusterList_loop] at h
    · intro l h
      simp only [getClusterList_loop, LoopEnd.finished.injEq] at h
      subst h
      rfl
  | cons name rest ih =>
    intro items s
    unfold getClusterList_loop
    simp only []
    by_cases hc : (!(A.Getpgcluster s name ns).1.found ||
        decide ((A.Getpgcluster s name ns).1.err ≠ none)) = true
    · rw [if_pos hc]
      constructor
      · intro l err h
        simp only [LoopEnd.returned.injEq] at h
        obtain ⟨h1, h2⟩ := h
        subst h1
        subst h2
        refine ⟨rfl, ?_⟩
        cases hfound : (A.Getpgcluster s name ns).1.found with
        | false => exact hA s name hfound
        | true =>
          rw [hfound] at hc
          simpa using hc
      · intro l h
        exact LoopEnd.noConfusion h
    · rw [if_neg hc]
      obtain ⟨ih1, ih2⟩ := ih (items ++ [(A.Getpgcluster s name ns).1.cluster])
        (A.Getpgcluster s name ns).2
      constructor
      · exact ih1
      · intro l h
        have := ih2 l h
        simp only [List.length_append, List.length_cons, List.length_nil] at this ⊢
        omega

/-- When every lookup of a named cluster that reports not found also returns an
error, `getClusterList` returns a nil error only together with a non-empty
list. -/
theorem getClusterList_nil_error_nonempty {σ : Type} (A : Apiserver σ) (s : σ) (ns : String)
    (clusterNames : List String) (selector : String)
    (hA : ∀ (s : σ) (name : String), (A.Getpgcluster s name ns).1.found = false →
      (A.Getpgcluster s name ns).1.err ≠ none)
    (h : (getClusterList A s ns clusterNames selector).1.2 = none) :
    (getClusterList A s ns clusterNames selector).1.1 ≠ [] := by
  have hnames : ∀ (items : List Pgcluster) (s1 : σ),
      (getClusterList_names A ns clusterNames items s1).1.2 = none →
      (getClusterList_names A ns clusterNames items s1).1.1 ≠ [] := by
    intro items s1
    unfold getClusterList_names
    obtain ⟨h1, _⟩ := getClusterList_loop_spec A ns hA clusterNames items s1
    rcases hl : getClusterList_loop A ns clusterNames items s1 with ⟨e, s2⟩
    rw [hl] at h1
    cases e with
    | returned l err =>
      intro hnone
      exact absurd hnone (h1 l err rfl).2
    | finished l =>
      simp only []
      by_cases hlen : l.length = 0
      · rw [if_pos hlen]
        intro hnone
        simp at hnone
      · rw [if_neg hlen]
        intro _ hnil
        simp only [] at hnil
        rw [hnil] at hlen
        exact hlen rfl
  unfold getClusterList at h ⊢
  by_cases h0 : clusterNames.length = 0 ∧ selector = ""
  · rw [if_pos h0] at h
    simp at h
  · rw [if_neg h0] at h ⊢
    by_cases hsel : selector ≠ ""
    · rw [if_pos hsel] at h ⊢
      simp only [] at h ⊢
      cases he : (A.GetpgclustersBySelector s selector ns).1.err with
      | some e =>
        rw [he] at h
        simp at h
      | none =>
        rw [he] at h
        exact hnames _ _ h
    · rw [if_neg hsel] at h ⊢
      exact hnames _ _ h

/-- C13, evaluated at the failing input: no selector, the one cluster name
`missing`, and a store whose lookup of `missing` reports not found without an
error; `getClusterList` returns the empty list together with a nil error. -/
theorem getClusterList_not_found_nil_error :
    (getClusterList (memApi none none none) [] "ns1" ["missing"] "").1 = ([], none) := by
  decide

/-- Without password rotation the loop of `UpdatePgBouncer` appends one result
for each cluster. -/
theorem UpdatePgBouncer_loop_length {σ : Type} (A : Apiserver σ)
    (request : UpdatePgBouncerRequest) (hr : request.RotatePassword = false)
    (clusters : List Pgcluster) :
    ∀ (results : List UpdatePgBouncerDetail) (s : σ),
      (UpdatePgBouncer_loop A request clusters results s).1.length =
        results.length + clusters.length := by
  induction clusters with
  | nil =>
    intro results s
    simp [UpdatePgBouncer_loop]
  | cons cluster rest ih =>
    intro results s
    unfold UpdatePgBouncer_loop
    simp only [hr, Bool.false_eq_true, if_false]
    by_cases he : (!A.Enabled cluster.Spec.PgBouncer) = true
    · rw [if_pos he, ih]
      simp only [List.length_append, List.length_cons, List.length_nil]
      omega
    · rw [if_neg he]
      split <;> rw [ih] <;>
        simp only [List.length_append, List.length_cons, List.length_nil] <;> omega

/-- C14, evaluated at the failing input: the request names the one cluster `c1`
and asks for a password rotation, `c1` has pgbouncer enabled and is no
standby, the rotation fails and the cluster update succeeds; the cluster list
has one cluster and the response has two result entries, both for `c1`. -/
theorem UpdatePgBouncer_rotation_failure_two_results :
    (getClusterList (memApi (some "pgclusters not found") (some "rotation failed") none)
        [mkCluster "ns1" "c1" 1] "ns1" ["c1"] "").1 = ([mkCluster "ns1" "c1" 1], none) ∧
      (UpdatePgBouncer (memApi (some "pgclusters not found") (some "rotation failed") none)
        [mkCluster "ns1" "c1" 1] ⟨["c1"], "", "", "ns1", 0, true, ""⟩ "ns1" "admin").1 =
        ⟨[⟨"c1", true, true, "rotation failed"⟩, ⟨"c1", true, true, "rotation failed"⟩],
          ⟨StatusCode.Ok, ""⟩⟩ := by
  decide

end PgbouncerService

namespace PgtaskController

/-! ## The work queue under any interleaving -/

theorem WorkQueue.Add_inFlight (q : WorkQueue) (key : String) :
    (q.Add key).inFlight = q.inFlight := by
  unfold WorkQueue.Add
  split_ifs <;> rfl

theorem WorkQueue.Add_dirty_mono (q : WorkQueue) (key k : String) (h : k ∈ q.dirty) :
    k ∈ (q.Add key).dirty := by
  unfold WorkQueue.Add
  split_ifs
  · exact h
  · exact h
  · exact List.mem_cons_of_mem _ h
  · exact h
  · exact h

theorem WorkQueue.Add_marks_dirty (q : WorkQueue) (key : String)
    (hs : q.shuttingDown = false) (hk : key ∈ q.inFlight) : key ∈ (q.Add key).dirty := by
  unfold WorkQueue.Add
  rw [if_neg (by simp [hs]), if_pos hk]
  split_ifs with hd
  · exact hd
  · exact List.mem_cons_self _ _

theorem QueueInv_Add (q : WorkQueue) (key : String) (h : QueueInv q)
    (hkey : '/' ∈ key.data) : QueueInv (q.Add key) := by
  unfold WorkQueue.Add
  split_ifs with h1 h2 h3 h4
  · exact h
  · exact h
  · exact ⟨h.pnodup, h.disj, fun k hk => by
      rcases List.mem_cons.mp hk with rfl | hk
      · exact h2
      · exact h.dsub k hk, h.sep⟩
  · exact h
  · refine ⟨?_, ?_, h.dsub, ?_⟩
    · show (q.pending ++ [key]).Nodup
      rw [List.nodup_append]
      refine ⟨h.pnodup, List.nodup_singleton key, ?_⟩
      intro a ha hb
      rw [List.mem_singleton] at hb
      subst hb
      exact h4 ha
    · intro k hk
      show k ∉ q.inFlight
      have hk2 : k ∈ q.pending ++ [key] := hk
      rw [List.mem_append, List.mem_singleton] at hk2
      rcases hk2 with hk2 | rfl
      · exact h.disj k hk2
      · exact h2
    · intro k hk
      have hk2 : k ∈ q.pending ++ [key] ∨ k ∈ q.inFlight := hk
      rw [List.mem_append, List.mem_singleton] at hk2
      rcases hk2 with (hk2 | rfl) | hk2
      · exact h.sep k (Or.inl hk2)
      · exact hkey
      · exact h.sep k (Or.inr hk2)

theorem WorkQueue.Get_cons (q : WorkQueue) (key : String) (rest : List String)
    (h : q.pending = key :: rest) :
    q.Get = (QueueGet.item key, { q with pending := rest, inFlight := key :: q.inFlight }) := by
  unfold WorkQueue.Get
  rw [h]

theorem WorkQueue.Get_item (q q2 : WorkQueue) (key : String)
    (h : q.Get = (QueueGet.item key, q2)) :
    ∃ rest, q.pending = key :: rest ∧
      q2 = { q with pending := rest, inFlight := key :: q.inFlight } := by
  unfold WorkQueue.Get at h
  cases hp : q.pending with
  | nil =>
    rw [hp] at h
    simp only [] at h
    split_ifs at h <;> simp at h
  | cons k rest =>
    rw [hp] at h
    simp only [Prod.mk.injEq, QueueGet.item.injEq] at h
    obtain ⟨h1, h2⟩ := h
    subst h1
    exact ⟨rest, rfl, h2.symm⟩

theorem WorkQueue.Get_other (q q2 : WorkQueue) (r : QueueGet) (h : q.Get = (r, q2))
    (hr : ∀ key, r ≠ QueueGet.item key) : q2 = q := by
  unfold WorkQueue.Get at h
  cases hp : q.pending with
  | nil =>
    rw [hp] at h
    simp only [] at h
    split_ifs at h <;> simp only [Prod.mk.injEq] at h <;> exact h.2.symm
  | cons k rest =>
    rw [hp] at h
    simp only [Prod.mk.injEq] at h
    exact absurd h.1.symm (hr k)

theorem QueueInv_Get_item (q : WorkQueue) (key : String) (rest : List String)
    (h : QueueInv q) (hp : q.pending = key :: rest) :
    QueueInv { q with pending := rest, inFlight := key :: q.inFlight } := by
  have hnd : (key :: rest).Nodup := hp ▸ h.pnodup
  rw [List.nodup_cons] at hnd
  refine ⟨hnd.2, ?_, ?_, ?_⟩
  · intro k hk
    show k ∉ key :: q.inFlight
    rw [List.mem_cons, not_or]
    constructor
    · rintro rfl
      exact hnd.1 hk
    · exact h.disj k (hp ▸ List.mem_cons_of_mem _ hk)
  · intro k hk
    exact List.mem_cons_of_mem _ (h.dsub k hk)
  · intro k hk
    have hk2 : k ∈ rest ∨ k ∈ key :: q.inFlight := hk
    rcases hk2 with hk2 | hk2
    · exact h.sep k (Or.inl (hp ▸ List.mem_cons_of_mem _ hk2))
    · rcases List.mem_cons.mp hk2 with rfl | hk3
      · exact h.sep k (Or.inl (hp ▸ List.mem_cons_self _ _))
      · exact h.sep k (Or.inr hk3)

theorem QueueInv_Done (q : WorkQueue) (key : String) (h : QueueInv q) :
    QueueInv (q.Done key) := by
  unfold WorkQueue.Done
  split_ifs with hd
  · have hin : key ∈ q.inFlight := h.dsub key hd
    have hnp : key ∉ q.pending := fun hp => h.disj key hp hin
    refine ⟨?_, ?_, ?_, ?_⟩
    · show (q.pending ++ [key]).Nodup
      rw [List.nodup_append]
      refine ⟨h.pnodup, List.nodup_singleton key, ?_⟩
      intro a ha hb
      rw [List.mem_singleton] at hb
      subst hb
      exact hnp ha
    · intro k hk
      have hk2 : k ∈ q.pending ++ [key] := hk
      show k ∉ q.inFlight.filter (fun k => decide (k ≠ key))
      rw [List.mem_filter, not_and]
      rw [List.mem_append, List.mem_singleton] at hk2
      rcases hk2 with hk2 | rfl
      · intro hk3
        exact absurd hk3 (h.disj k hk2)
      · intro _
        simp
    · intro k hk
      have hk2 : k ∈ q.dirty.filter (fun k => decide (k ≠ key)) := hk
      show k ∈ q.inFlight.filter (fun k => decide (k ≠ key))
      rw [List.mem_filter] at hk2 ⊢
      exact ⟨h.dsub k hk2.1, hk2.2⟩
    · intro k hk
      have hk2 : k ∈ q.pending ++ [key] ∨
        k ∈ q.inFlight.filter (fun k => decide (k ≠ key)) := hk
      rw [List.mem_append, List.mem_singleton, List.mem_filter] at hk2
      rcases hk2 with (hk2 | rfl) | hk2
      · exact h.sep k (Or.inl hk2)
      · exact h.sep k (Or.inr hin)
      · exact h.sep k (Or.inr hk2.1)
  · refine ⟨h.pnodup, ?_, ?_, ?_⟩
    · intro k hk
      show k ∉ q.inFlight.filter (fun k => decide (k ≠ key))
      rw [List.mem_filter, not_and]
      intro hk3
      exact absurd hk3 (h.disj k hk)
    · intro k hk
      show k ∈ q.inFlight.filter (fun k => decide (k ≠ key))
      rw [List.mem_filter]
      refine ⟨h.dsub k hk, ?_⟩
      have : k ≠ key := by
        rintro rfl
        exact hd hk
      simpa using this
    · intro k hk
      have hk2 : k ∈ q.pending ∨ k ∈ q.inFlight.filter (fun k => decide (k ≠ key)) := hk
      rw [List.mem_filter] at hk2
      rcases hk2 with hk2 | hk2
      · exact h.sep k (Or.inl hk2)
      · exact h.sep k (Or.inr hk2.1)

theorem WorkQueue.Done_inFlight (q : WorkQueue) (key : String) :
    (q.Done key).inFlight = q.inFlight.filter (fun k => decide (k ≠ key)) := by
  unfold WorkQueue.Done
  split_ifs <;> rfl

theorem WorkQueue.Done_dirty_other (q : WorkQueue) (key k : String) (hne : k ≠ key)
    (h : k ∈ q.dirty) : k ∈ (q.Done key).dirty := by
  unfold WorkQueue.Done
  split_ifs
  · show k ∈ q.dirty.filter (fun k => decide (k ≠ key))
    rw [List.mem_filter]
    exact ⟨h, by simpa using hne⟩
  · exact h

theorem QueueInv_ShutDown (q : WorkQueue) (h : QueueInv q) : QueueInv q.ShutDown :=
  ⟨h.pnodup, h.disj, h.dsub, h.sep⟩

/-- The calls of the switch do not touch the queue. -/
theorem processNextItem_switch_queue {σ : Type} (K : Kubeapi σ) (s : σ) (t : Pgtask)
    (ns : String) (q : WorkQueue) :
    (processNextItem_switch K s t ns).foldl queueCall q = q := by
  apply processNextItem_switch_cases K s t ns (fun l => l.foldl queueCall q = q)
  · rfl
  · intro h
    rfl
  · rfl
  · intro h
    rfl

/-- On the queue, the rest of `processNextItem` for a key with the separator is
the one call `Done(key)`. -/
theorem processNextItem_queue_effect {σ : Type} (K : Kubeapi σ) (s : σ) (key : String)
    (q : WorkQueue) (hkey : '/' ∈ key.data) :
    (processNextItem K s key false).calls.foldl queueCall q = q.Done key := by
  obtain ⟨ns, name, rest, h⟩ := strings_Split_of_mem key hkey
  cases hf : (K.Getpgtask s name ns).1.found with
  | false =>
    rw [processNextItem_not_found K s key ns name rest h hf]
    rfl
  | true =>
    rw [processNextItem_found K s key ns name rest h hf]
    rcases K.PatchpgtaskStatus (K.Getpgtask s name ns).2 PgtaskStateProcessed
        "Successfully processed Pgtask by controller" (K.Getpgtask s name ns).1.task ns
      with ⟨e, s2⟩
    cases e with
    | some e => rfl
    | none =>
      simp only [List.foldl_append, List.foldl_cons, List.foldl_nil]
      rw [show queueCall (queueCall q (Call.Getpgtask name ns))
          (Call.PatchpgtaskStatus PgtaskStateProcessed
            "Successfully processed Pgtask by controller" (K.Getpgtask s name ns).1.task ns)
          = q from rfl, processNextItem_switch_queue]
      rfl

/-- The key `onAdd` computes has the separator. -/
theorem key_has_separator (a b : String) : '/' ∈ (a ++ "/" ++ b).data := by
  simp [String.data_append]

/-- On the queue, `onAdd` is nothing for a Processed task and `Add(key)` with
the key of the task otherwise. -/
theorem onAdd_queue_effect (task : Pgtask) (q : WorkQueue) :
    (onAdd task).1.foldl queueCall q =
      if task.Status.State = PgtaskStateProcessed then q
      else q.Add (task.ObjectMeta.Namespace ++ "/" ++ task.ObjectMeta.Name) := by
  unfold onAdd
  by_cases h : task.Status.State = PgtaskStateProcessed
  · rw [if_pos h, if_pos h]
    rfl
  · rw [if_neg h, if_neg h]
    rfl

theorem QueueInv_onAdd (task : Pgtask) (q : WorkQueue) (h : QueueInv q) :
    QueueInv ((onAdd task).1.foldl queueCall q) := by
  rw [onAdd_queue_effect]
  split_ifs
  · exact h
  · exact QueueInv_Add q _ h (key_has_separator _ _)

theorem onAdd_inFlight (task : Pgtask) (q : WorkQueue) :
    ((onAdd task).1.foldl queueCall q).inFlight = q.inFlight := by
  rw [onAdd_queue_effect]
  split_ifs
  · rfl
  · exact WorkQueue.Add_inFlight q _

theorem onAdd_dirty_mono (task : Pgtask) (q : WorkQueue) (k : String) (h : k ∈ q.dirty) :
    k ∈ ((onAdd task).1.foldl queueCall q).dirty := by
  rw [onAdd_queue_effect]
  split_ifs
  · exact h
  · exact WorkQueue.Add_dirty_mono q _ k h

theorem step_get_item {σ : Type} (K : Kubeapi σ) (S : System) (w : Nat) (key : String)
    (q2 : WorkQueue) (hw : S.worker w = Worker.idle)
    (hg : S.queue.Get = (QueueGet.item key, q2)) :
    step K S (Event.get w) = ⟨q2, Function.update S.worker w (Worker.busy key)⟩ := by
  simp only [step, hw, hg]

theorem step_get_quit {σ : Type} (K : Kubeapi σ) (S : System) (w : Nat)
    (q2 : WorkQueue) (hw : S.worker w = Worker.idle)
    (hg : S.queue.Get = (QueueGet.quit, q2)) :
    step K S (Event.get w) = ⟨q2, Function.update S.worker w Worker.stopped⟩ := by
  simp only [step, hw, hg]

theorem step_get_blocks {σ : Type} (K : Kubeapi σ) (S : System) (w : Nat)
    (q2 : WorkQueue) (hw : S.worker w = Worker.idle)
    (hg : S.queue.Get = (QueueGet.blocks, q2)) :
    step K S (Event.get w) = S := by
  simp only [step, hw, hg]

theorem step_get_not_idle {σ : Type} (K : Kubeapi σ) (S : System) (w : Nat)
    (hw : S.worker w ≠ Worker.idle) : step K S (Event.get w) = S := by
  cases hv : S.worker w with
  | idle => exact absurd hv hw
  | busy key => simp only [step, hv]
  | stopped => simp only [step, hv]

theorem step_finish_busy {σ : Type} (K : Kubeapi σ) (S : System) (w : Nat) (s : σ)
    (key : String) (hw : S.worker w = Worker.busy key) :
    step K S (Event.finish w s) =
      ⟨(processNextItem K s key false).calls.foldl queueCall S.queue,
        Function.update S.worker w
          (if (processNextItem K s key false).ret = some true then Worker.idle
            else Worker.stopped)⟩ := by
  simp only [step, hw]

theorem step_finish_not_busy {σ : Type} (K : Kubeapi σ) (S : System) (w : Nat) (s : σ)
    (hw : ∀ key, S.worker w ≠ Worker.busy key) : step K S (Event.finish w s) = S := by
  cases hv : S.worker w with
  | idle => simp only [step, hv]
  | busy key => exact absurd hv (hw key)
  | stopped => simp only [step, hv]

/-- A worker that is not made busy by an update of worker `w`: the invariant
parts on the workers carry over. -/
theorem held_excl_update (S : System) (w : Nat) (x : Worker) (inFlight : List String)
    (hx : ∀ k, x ≠ Worker.busy k)
    (hheld : ∀ v k, v ≠ w → S.worker v = Worker.busy k → k ∈ inFlight)
    (hexcl : ∀ v1 v2 k, S.worker v1 = Worker.busy k → S.worker v2 = Worker.busy k → v1 = v2) :
    (∀ v k, Function.update S.worker w x v = Worker.busy k → k ∈ inFlight) ∧
      (∀ v1 v2 k, Function.update S.worker w x v1 = Worker.busy k →
        Function.update S.worker w x v2 = Worker.busy k → v1 = v2) := by
  constructor
  · intro v k hv
    by_cases hvw : v = w
    · subst hvw
      rw [Function.update_same] at hv
      exact absurd hv (hx k)
    · rw [Function.update_noteq hvw] at hv
      exact hheld v k hvw hv
  · intro v1 v2 k hv1 hv2
    by_cases h1 : v1 = w
    · subst h1
      rw [Function.update_same] at hv1
      exact absurd hv1 (hx k)
    · by_cases h2 : v2 = w
      · subst h2
        rw [Function.update_same] at hv2
        exact absurd hv2 (hx k)
      · rw [Function.update_noteq h1] at hv1
        rw [Function.update_noteq h2] at hv2
        exact hexcl v1 v2 k hv1 hv2

/-- Every step keeps the invariant of the controller. -/
theorem SystemInv_step {σ : Type} (K : Kubeapi σ) (S : System) (e : Event σ)
    (h : SystemInv S) : SystemInv (step K S e) := by
  cases e with
  | onAdd task =>
    refine ⟨QueueInv_onAdd task S.queue h.queue, ?_, h.excl⟩
    intro w k hw
    show k ∈ ((onAdd task).1.foldl queueCall S.queue).inFlight
    rw [onAdd_inFlight]
    exact h.held w k hw
  | get w =>
    by_cases hw : S.worker w = Worker.idle
    · rcases hg : S.queue.Get with ⟨r, q2⟩
      cases r with
      | blocks =>
        rw [step_get_blocks K S w q2 hw hg]
        exact h
      | quit =>
        rw [step_get_quit K S w q2 hw hg]
        have hq : q2 = S.queue :=
          WorkQueue.Get_other S.queue q2 _ hg (fun _ hne => by cases hne)
        subst hq
        obtain ⟨h1, h2⟩ := held_excl_update S w Worker.stopped S.queue.inFlight
          (fun _ hne => by cases hne) (fun v k _ hv => h.held v k hv) h.excl
        exact ⟨h.queue, h1, h2⟩
      | item key =>
        rw [step_get_item K S w key q2 hw hg]
        obtain ⟨rest, hp, hq⟩ := WorkQueue.Get_item S.queue q2 key hg
        subst hq
        have hkp : key ∈ S.queue.pending := hp ▸ List.mem_cons_self _ _
        have hnot : ∀ v, S.worker v ≠ Worker.busy key := fun v hv =>
          h.queue.disj key hkp (h.held v key hv)
        refine ⟨QueueInv_Get_item S.queue key rest h.queue hp, ?_, ?_⟩
        · intro v k hv
          have hv2 : Function.update S.worker w (Worker.busy key) v = Worker.busy k := hv
          show k ∈ key :: S.queue.inFlight
          by_cases hvw : v = w
          · subst hvw
            rw [Function.update_same] at hv2
            injection hv2 with hk
            subst hk
            exact List.mem_cons_self _ _
          · rw [Function.update_noteq hvw] at hv2
            exact List.mem_cons_of_mem _ (h.held v k hv2)
        · intro v1 v2 k hv1 hv2
          have hv1b : Function.update S.worker w (Worker.busy key) v1 = Worker.busy k := hv1
          have hv2b : Function.update S.worker w (Worker.busy key) v2 = Worker.busy k := hv2
          by_cases h1 : v1 = w
          · by_cases h2 : v2 = w
            · rw [h1, h2]
            · subst h1
              rw [Function.update_same] at hv1b
              injection hv1b with hk
              subst hk
              rw [Function.update_noteq h2] at hv2b
              exact absurd hv2b (hnot v2)
          · by_cases h2 : v2 = w
            · subst h2
              rw [Function.update_same] at hv2b
              injection hv2b with hk
              subst hk
              rw [Function.update_noteq h1] at hv1b
              exact absurd hv1b (hnot v1)
            · rw [Function.update_noteq h1] at hv1b
              rw [Function.update_noteq h2] at hv2b
              exact h.excl v1 v2 k hv1b hv2b
    · rw [step_get_not_idle K S w hw]
      exact h
  | finish w s =>
    by_cases hb : ∃ key, S.worker w = Worker.busy key
    · obtain ⟨key, hw⟩ := hb
      rw [step_finish_busy K S w s key hw]
      have hin : key ∈ S.queue.inFlight := h.held w key hw
      have hsep : '/' ∈ key.data := h.queue.sep key (Or.inr hin)
      rw [processNextItem_queue_effect K s key S.queue hsep]
      obtain ⟨h1, h2⟩ := held_excl_update S w
        (if (processNextItem K s key false).ret = some true then Worker.idle
          else Worker.stopped) (S.queue.Done key).inFlight
        (fun k hne => by split_ifs at hne)
        (fun v k hvw hv => by
          rw [WorkQueue.Done_inFlight, List.mem_filter]
          refine ⟨h.held v k hv, ?_⟩
          have hne : k ≠ key := by
            rintro rfl
            exact hvw (h.excl v w k hv hw)
          simpa using hne) h.excl
      exact ⟨QueueInv_Done S.queue key h.queue, h1, h2⟩
    · rw [step_finish_not_busy K S w s (fun key hk => hb ⟨key, hk⟩)]
      exact h
  | shutDown =>
    exact ⟨QueueInv_ShutDown S.queue h.queue, h.held, h.excl⟩

theorem SystemInv_init : SystemInv System.init := by
  refine ⟨⟨List.nodup_nil, ?_, ?_, ?_⟩, ?_, ?_⟩
  · intro k hk
    exact absurd hk (List.not_mem_nil k)
  · intro k hk
    exact absurd hk (List.not_mem_nil k)
  · intro k hk
    rcases hk with hk | hk <;> exact absurd hk (List.not_mem_nil k)
  · intro w k hw
    cases hw
  · intro w1 w2 k hw
    cases hw

/-- Every run keeps the invariant of the controller. -/
theorem SystemInv_run {σ : Type} (K : Kubeapi σ) (es : List (Event σ)) :
    ∀ S : System, SystemInv S → SystemInv (run K S es) := by
  induction es with
  | nil =>
    intro S h
    exact h
  | cons e es ih =>
    intro S h
    exact ih (step K S e) (SystemInv_step K S e h)

theorem WorkQueue.Get_dirty (q q2 : WorkQueue) (r : QueueGet) (h : q.Get = (r, q2)) :
    q2.dirty = q.dirty := by
  cases r with
  | item key =>
    obtain ⟨rest, _, hq⟩ := WorkQueue.Get_item q q2 key h
    rw [hq]
  | quit => rw [WorkQueue.Get_other q q2 _ h (fun _ hne => by cases hne)]
  | blocks => rw [WorkQueue.Get_other q q2 _ h (fun _ hne => by cases hne)]

/-- While worker `w` holds the key `k` and `k` is dirty, a step other than the
end of `processNextItem` in `w` leaves both as they are. -/
theorem window_step {σ : Type} (K : Kubeapi σ) (S : System) (e : Event σ) (w : Nat)
    (k : String) (h : SystemInv S) (hw : S.worker w = Worker.busy k)
    (hd : k ∈ S.queue.dirty) (he : Event.isFinishOf w e = false) :
    (step K S e).worker w = Worker.busy k ∧ k ∈ (step K S e).queue.dirty := by
  cases e with
  | onAdd task => exact ⟨hw, onAdd_dirty_mono task S.queue k hd⟩
  | get v =>
    by_cases hv : S.worker v = Worker.idle
    · have hvw : w ≠ v := by
        rintro rfl
        rw [hw] at hv
        cases hv
      rcases hg : S.queue.Get with ⟨r, q2⟩
      have hdq : q2.dirty = S.queue.dirty := WorkQueue.Get_dirty S.queue q2 r hg
      cases r with
      | blocks =>
        rw [step_get_blocks K S v q2 hv hg]
        exact ⟨hw, hd⟩
      | quit =>
        rw [step_get_quit K S v q2 hv hg]
        exact ⟨by simp only [Function.update_noteq hvw]; exact hw, hdq ▸ hd⟩
      | item key =>
        rw [step_get_item K S v key q2 hv hg]
        exact ⟨by simp only [Function.update_noteq hvw]; exact hw, hdq ▸ hd⟩
    · rw [step_get_not_idle K S v hv]
      exact ⟨hw, hd⟩
  | finish v s =>
    have hvw : w ≠ v := by
      rintro rfl
      simp [Event.isFinishOf] at he
    by_cases hb : ∃ key, S.worker v = Worker.busy key
    · obtain ⟨key, hv⟩ := hb
      rw [step_finish_busy K S v s key hv]
      have hsep : '/' ∈ key.data := h.queue.sep key (Or.inr (h.held v key hv))
      rw [processNextItem_queue_effect K s key S.queue hsep]
      have hne : k ≠ key := by
        rintro rfl
        exact hvw (h.excl w v k hw hv)
      exact ⟨by simp only [Function.update_noteq hvw]; exact hw,
        WorkQueue.Done_dirty_other S.queue key k hne hd⟩
    · rw [step_finish_not_busy K S v s (fun key hk => hb ⟨key, hk⟩)]
      exact ⟨hw, hd⟩
  | shutDown => exact ⟨hw, hd⟩

/-- The same over a sequence of steps. -/
theorem window_run {σ : Type} (K : Kubeapi σ) (w : Nat) (k : String)
    (es : List (Event σ)) :
    ∀ S : System, SystemInv S → S.worker w = Worker.busy k → k ∈ S.queue.dirty →
      (∀ e ∈ es, Event.isFinishOf w e = false) →
      (run K S es).worker w = Worker.busy k ∧ k ∈ (run K S es).queue.dirty := by
  induction es with
  | nil =>
    intro S _ hw hd _
    exact ⟨hw, hd⟩
  | cons e es ih =>
    intro S h hw hd hes
    obtain ⟨hw2, hd2⟩ := window_step K S e w k h hw hd (hes e (List.mem_cons_self _ _))
    exact ih (step K S e) (SystemInv_step K S e h) hw2 hd2
      (fun e2 he2 => hes e2 (List.mem_cons_of_mem _ he2))

/-- C12 as stated fails: worker 0 holds the key `ns1/taskA`, the queue is shut
down, and then an Add notification for the key arrives before worker 0 ends
`processNextItem`; the Add is a no-op and after `Done` the key is neither
pending nor in flight nor dirty: it is not delivered again. -/
theorem add_after_shutdown_not_redelivered :
    (run memKube System.init
        [Event.onAdd (mkTask "ns1" "taskA" "taskA" PgtaskBackrest []), Event.get 0,
          Event.shutDown]).worker 0 = Worker.busy "ns1/taskA" ∧
      (run memKube System.init
        [Event.onAdd (mkTask "ns1" "taskA" "taskA" PgtaskBackrest []), Event.get 0,
          Event.shutDown,
          Event.onAdd (mkTask "ns1" "taskA" "taskA" PgtaskBackrest []),
          Event.finish 0 [mkTask "ns1" "taskA" "taskA" PgtaskBackrest []]]).queue =
        ⟨[], [], [], true⟩ := by
  decide

/-- C12, amended: in the state after any sequence of steps of the controller
from its start, with any number of workers: no two workers are inside
`processNextItem` for the same key; while a worker holds a key, `Get` does not
hand that key out; and if, while worker `w` holds the key `k` and the queue is
not shut down, an Add notification for a task with the key `k` that is not
Processed arrives, then after any further steps other than the end of
`processNextItem` in `w` (further notifications for `k` included), the
`Done(k)` of worker `w` leaves `k` pending exactly once, not in flight, not
dirty, and held by no worker. -/
theorem workers_never_share_key {σ : Type} (K : Kubeapi σ) (es : List (Event σ)) :
    (∀ w1 w2 k, (run K System.init es).worker w1 = Worker.busy k →
      (run K System.init es).worker w2 = Worker.busy k → w1 = w2) ∧
    (∀ w k, (run K System.init es).worker w = Worker.busy k →
      ∀ q2, (run K System.init es).queue.Get ≠ (QueueGet.item k, q2)) ∧
    (∀ (w : Nat) (k : String) (task : Pgtask) (window : List (Event σ)) (s : σ),
      (run K System.init es).worker w = Worker.busy k →
      (run K System.init es).queue.shuttingDown = false →
      task.Status.State ≠ PgtaskStateProcessed →
      (MetaNamespaceKeyFunc task).1 = k →
      (∀ e ∈ window, Event.isFinishOf w e = false) →
      (step K (run K (step K (run K System.init es) (Event.onAdd task)) window)
          (Event.finish w s)).queue.pending.count k = 1 ∧
        k ∉ (step K (run K (step K (run K System.init es) (Event.onAdd task)) window)
          (Event.finish w s)).queue.inFlight ∧
        k ∉ (step K (run K (step K (run K System.init es) (Event.onAdd task)) window)
          (Event.finish w s)).queue.dirty ∧
        ∀ v, (step K (run K (step K (run K System.init es) (Event.onAdd task)) window)
          (Event.finish w s)).worker v ≠ Worker.busy k) := by
  have h0 : SystemInv (run K System.init es) := SystemInv_run K es System.init SystemInv_init
  refine ⟨h0.excl, ?_, ?_⟩
  · intro w k hw q2 hg
    obtain ⟨rest, hp, _⟩ := WorkQueue.Get_item _ q2 k hg
    exact h0.queue.disj k (hp ▸ List.mem_cons_self _ _) (h0.held w k hw)
  · intro w k task window s hw hs ht hk hwin
    -- the notification marks the key dirty
    have h1 : SystemInv (step K (run K System.init es) (Event.onAdd task)) :=
      SystemInv_step K _ _ h0
    have hw1 : (step K (run K System.init es) (Event.onAdd task)).worker w = Worker.busy k := hw
    have hd1 : k ∈ (step K (run K System.init es) (Event.onAdd task)).queue.dirty := by
      show k ∈ ((onAdd task).1.foldl queueCall (run K System.init es).queue).dirty
      rw [onAdd_queue_effect, if_neg ht]
      have hk2 : task.ObjectMeta.Namespace ++ "/" ++ task.ObjectMeta.Name = k := hk
      rw [hk2]
      exact WorkQueue.Add_marks_dirty _ k hs (h0.held w k hw)
    -- the window keeps it so
    have h2 : SystemInv (run K (step K (run K System.init es) (Event.onAdd task)) window) :=
      SystemInv_run K window _ h1
    obtain ⟨hw2, hd2⟩ := window_run K w k window _ h1 hw1 hd1 hwin
    -- the end of processNextItem in w
    generalize run K (step K (run K System.init es) (Event.onAdd task)) window = S2
      at h2 hw2 hd2
    have hin : k ∈ S2.queue.inFlight := h2.held w k hw2
    have hnp : k ∉ S2.queue.pending := fun hp => h2.queue.disj k hp hin
    rw [step_finish_busy K S2 w s k hw2,
      processNextItem_queue_effect K s k S2.queue (h2.queue.sep k (Or.inr hin))]
    have hdone : S2.queue.Done k =
        { S2.queue with
          inFlight := S2.queue.inFlight.filter (fun x => decide (x ≠ k))
          pending := S2.queue.pending ++ [k]
          dirty := S2.queue.dirty.filter (fun x => decide (x ≠ k)) } := by
      unfold WorkQueue.Done
      rw [if_pos hd2]
    rw [hdone]
    refine ⟨?_, ?_, ?_, ?_⟩
    · show (S2.queue.pending ++ [k]).count k = 1
      rw [List.count_append, List.count_eq_zero_of_not_mem hnp]
      simp
    · show k ∉ S2.queue.inFlight.filter (fun x => decide (x ≠ k))
      simp [List.mem_filter]
    · show k ∉ S2.queue.dirty.filter (fun x => decide (x ≠ k))
      simp [List.mem_filter]
    · intro v hv
      have hv2 : Function.update S2.worker w
          (if (processNextItem K s k false).ret = some true then Worker.idle
            else Worker.stopped) v = Worker.busy k := hv
      by_cases hvw : v = w
      · subst hvw
        rw [Function.update_same] at hv2
        split_ifs at hv2
      · rw [Function.update_noteq hvw] at hv2
        exact hvw (h2.excl v w k hv2 hw2)

/-- C12, amended, on a run with two workers: worker 0 holds `ns1/taskA`, two
more notifications for it arrive, worker 1 calls `Get` in between, and after
the `Done` of worker 0 the key is pending exactly once. -/
theorem workers_never_share_key_witness :
    (step memKube
        (run memKube
          (step memKube
            (run memKube System.init
              [Event.onAdd (mkTask "ns1" "taskA" "taskA" PgtaskBackrest []), Event.get 0])
            (Event.onAdd (mkTask "ns1" "taskA" "taskA" PgtaskBackrest [])))
          [Event.get 1, Event.onAdd (mkTask "ns1" "taskA" "taskA" PgtaskBackrest [])])
        (Event.finish 0 [mkTask "ns1" "taskA" "taskA" PgtaskBackrest []])).queue.pending.count
      "ns1/taskA" = 1 :=
  ((workers_never_share_key memKube
      [Event.onAdd (mkTask "ns1" "taskA" "taskA" PgtaskBackrest []), Event.get 0]).2.2
    0 "ns1/taskA" (mkTask "ns1" "taskA" "taskA" PgtaskBackrest [])
    [Event.get 1, Event.onAdd (mkTask "ns1" "taskA" "taskA" PgtaskBackrest [])]
    [mkTask "ns1" "taskA" "taskA" PgtaskBackrest []]
    (by decide) (by decide) (by decide) (by decide) (by decide)).1

end PgtaskController
